import Mathlib

/-!
Verification of the batch-job lifecycle manager of the insightflow-functions
repository: a shallow embedding of the JobStore (Azure-blob folder-per-state
storage of job records), the two status-poller handlers
(`batchStatusChecker` and `batchApiStatusChecker`), the result reconcilers
(`processResults` / `processBatchResults`) and the batch request builder
(`createBatchJsonl`), together with theorems settling the specified
properties.

Modelling conventions:
* Blob containers are association lists from blob name (here: the job id,
  the folder being a separate index) to the stored value; `upload`
  overwrites, `deleteIfExists` removes, `download` of a missing blob is the
  `none` case of a lookup (in the source it raises, always before any
  write of the operation in question).
* JSON documents are modelled by an explicit value type `JVal`; numbers
  carry their source lexeme so that serialization is faithful.
* Timestamps (`new Date().toISOString()`) are modelled as a strictly
  increasing abstract clock `now : Nat` rendered to a string by
  `isoString`; only determinism/distinctness of the rendering matters for
  the properties below.
-/

/-- JSON values.  Numbers keep their literal rendering (`num "0.3"`), which
is all the embedded code ever needs of them. -/
inductive JVal where
  | null : JVal
  | bool (b : Bool) : JVal
  | num (s : String) : JVal
  | str (s : String) : JVal
  | arr (xs : List JVal) : JVal
  | obj (fs : List (String × JVal)) : JVal
deriving Inhabited

/-- Field access `o.k` on a JSON object; `none` on non-objects and missing
keys (JavaScript `undefined`). -/
def JVal.getField : JVal → String → Option JVal
  | .obj fs, k => go fs k
  | _, _ => none
where go : List (String × JVal) → String → Option JVal
  | [], _ => none
  | (k', v) :: fs, k => if k' = k then some v else go fs k

/-- Join strings with a separator (kernel-reducible embedding of
`Array.prototype.join` / `String.intercalate`). -/
def joinSep (sep : String) : List String → String
  | [] => ""
  | [x] => x
  | x :: xs => x ++ sep ++ joinSep sep xs

/-- Split a character list at every occurrence of `c` (the semantics of
`String.prototype.split` with a one-character separator). -/
def splitChar (c : Char) : List Char → List (List Char)
  | [] => [[]]
  | x :: xs =>
    match splitChar c xs with
    | [] => [[x]]
    | r :: rs => if x = c then [] :: r :: rs else (x :: r) :: rs

/-- `s.split(sep)`. -/
def jsSplit (s : String) (sep : Char) : List String :=
  (splitChar sep s.toList).map (fun cs => String.mk cs)

/-- The whitespace characters the embedded strings can contain. -/
def isWsChar (c : Char) : Bool :=
  c = ' ' || c = '\n' || c = '\t' || c = '\r'

/-- `s.trim()`. -/
def jsTrim (s : String) : String :=
  String.mk (((s.toList.dropWhile isWsChar).reverse.dropWhile isWsChar).reverse)

/-- Whether a numeric literal denotes zero (sign followed by zeros and
dots only); exponent forms of zero are not produced by any value in this
development. -/
def zeroLexeme (s : String) : Bool :=
  let t := match s.toList with
    | '-' :: r => r
    | r => r
  !(t = []) && t.all (fun c => c = '0' || c = '.')

/-- JavaScript truthiness of a JSON value. -/
def jvTruthy : JVal → Bool
  | .null => false
  | .bool b => b
  | .num s => !(zeroLexeme s)
  | .str s => !(s = "")
  | .arr _ => true
  | .obj _ => true

mutual

/-- JavaScript `String(v)` coercion, to the extent the embedded code can
observe it (it is only ever applied to strings in practice; arrays join
their elements with commas). -/
def jsToString : JVal → String
  | .null => "null"
  | .bool b => if b then "true" else "false"
  | .num s => s
  | .str s => s
  | .arr xs => jsToStringList xs
  | .obj _ => "[object Object]"

/-- Comma-joined `String(...)` coercions of array elements. -/
def jsToStringList : List JVal → String
  | [] => ""
  | [x] => jsToString x
  | x :: xs => jsToString x ++ "," ++ jsToStringList xs

end

/-- Escape a character for inclusion in a JSON string literal (the escapes
the embedded strings can contain). -/
def escapeChar (c : Char) : String :=
  if c = '"' then "\\\""
  else if c = '\\' then "\\\\"
  else if c = '\n' then "\\n"
  else if c = '\t' then "\\t"
  else if c = '\r' then "\\r"
  else String.singleton c

/-- Render a JSON string literal. -/
def jsonQuote (s : String) : String :=
  "\"" ++ joinSep "" (s.toList.map escapeChar) ++ "\""

mutual

/-- `JSON.stringify(v)` (compact form, insertion key order). -/
def jsonStringify : JVal → String
  | .null => "null"
  | .bool b => if b then "true" else "false"
  | .num s => s
  | .str s => jsonQuote s
  | .arr xs => "[" ++ jsonStringifyList xs ++ "]"
  | .obj fs => "\x7b" ++ jsonStringifyFields fs ++ "\x7d"

/-- Comma-joined compact renderings of array elements. -/
def jsonStringifyList : List JVal → String
  | [] => ""
  | [x] => jsonStringify x
  | x :: xs => jsonStringify x ++ "," ++ jsonStringifyList xs

/-- Comma-joined compact renderings of object fields. -/
def jsonStringifyFields : List (String × JVal) → String
  | [] => ""
  | [(k, v)] => jsonQuote k ++ ":" ++ jsonStringify v
  | (k, v) :: fs => jsonQuote k ++ ":" ++ jsonStringify v ++ "," ++ jsonStringifyFields fs

end

/-- `n` copies of the two-space indent used by `JSON.stringify(v, null, 2)`. -/
def indent2 (n : Nat) : String := joinSep "" (List.replicate n "  ")

mutual

/-- `JSON.stringify(v, null, 2)` at nesting depth `d`. -/
def jsonStringify2 (d : Nat) : JVal → String
  | .null => "null"
  | .bool b => if b then "true" else "false"
  | .num s => s
  | .str s => jsonQuote s
  | .arr xs =>
      if xs.isEmpty then "[]"
      else "[\n" ++ jsonStringify2List (d + 1) xs ++ "\n" ++ indent2 d ++ "]"
  | .obj fs =>
      if fs.isEmpty then "\x7b\x7d"
      else "\x7b\n" ++ jsonStringify2Fields (d + 1) fs ++ "\n" ++ indent2 d ++ "\x7d"

/-- Pretty renderings of array elements at depth `d`, joined with `",\n"`
and indented. -/
def jsonStringify2List (d : Nat) : List JVal → String
  | [] => ""
  | [x] => indent2 d ++ jsonStringify2 d x
  | x :: xs => indent2 d ++ jsonStringify2 d x ++ ",\n" ++ jsonStringify2List d xs

/-- Pretty renderings of object fields at depth `d`. -/
def jsonStringify2Fields (d : Nat) : List (String × JVal) → String
  | [] => ""
  | [(k, v)] => indent2 d ++ jsonQuote k ++ ": " ++ jsonStringify2 d v
  | (k, v) :: fs =>
      indent2 d ++ jsonQuote k ++ ": " ++ jsonStringify2 d v ++ ",\n" ++ jsonStringify2Fields d fs

end

/-- Skip JSON whitespace. -/
def skipWs : List Char → List Char
  | [] => []
  | c :: cs => if c = ' ' || c = '\n' || c = '\t' || c = '\r' then skipWs cs else c :: cs

/-- Lex a JSON string body up to the closing quote, handling the escapes of
`escapeChar`. -/
def lexStr : List Char → Option (String × List Char)
  | [] => none
  | '"' :: cs => some ("", cs)
  | '\\' :: e :: cs => do
      let c ←
        if e = '"' then some '"'
        else if e = '\\' then some '\\'
        else if e = 'n' then some '\n'
        else if e = 't' then some '\t'
        else if e = 'r' then some '\r'
        else none
      let (s, rest) ← lexStr cs
      some (String.singleton c ++ s, rest)
  | '\\' :: [] => none
  | c :: cs => do
      let (s, rest) ← lexStr cs
      some (String.singleton c ++ s, rest)

/-- Characters that may appear in a JSON number lexeme. -/
def numChar (c : Char) : Bool :=
  c.isDigit || c = '-' || c = '+' || c = '.' || c = 'e' || c = 'E'

mutual

/-- Parse a JSON value from a character list, with explicit fuel.  Returns
the value and the unconsumed remainder. -/
def parseV : Nat → List Char → Option (JVal × List Char)
  | 0, _ => none
  | fuel + 1, cs =>
    match skipWs cs with
    | [] => none
    | c :: cs' =>
      if c = 'n' then
        match cs' with
        | 'u' :: 'l' :: 'l' :: rest => some (.null, rest)
        | _ => none
      else if c = 't' then
        match cs' with
        | 'r' :: 'u' :: 'e' :: rest => some (.bool true, rest)
        | _ => none
      else if c = 'f' then
        match cs' with
        | 'a' :: 'l' :: 's' :: 'e' :: rest => some (.bool false, rest)
        | _ => none
      else if c = '"' then do
        let (s, rest) ← lexStr cs'
        some (.str s, rest)
      else if c = '[' then
        match skipWs cs' with
        | ']' :: rest => some (.arr [], rest)
        | cs'' => parseArrItems fuel cs'' []
      else if c = '\x7b' then
        match skipWs cs' with
        | '\x7d' :: rest => some (.obj [], rest)
        | cs'' => parseObjItems fuel cs'' []
      else if numChar c then
        let lexeme := (c :: cs').takeWhile numChar
        let rest := (c :: cs').dropWhile numChar
        some (.num (String.mk lexeme), rest)
      else none

/-- Parse the remaining items of a non-empty JSON array (after `[`). -/
def parseArrItems : Nat → List Char → List JVal → Option (JVal × List Char)
  | 0, _, _ => none
  | fuel + 1, cs, acc => do
    let (v, rest) ← parseV fuel cs
    match skipWs rest with
    | ',' :: rest' => parseArrItems fuel rest' (acc ++ [v])
    | ']' :: rest' => some (.arr (acc ++ [v]), rest')
    | _ => none

/-- Parse the remaining fields of a non-empty JSON object (after the
opening brace). -/
def parseObjItems : Nat → List Char → List (String × JVal) → Option (JVal × List Char)
  | 0, _, _ => none
  | fuel + 1, cs, acc =>
    match skipWs cs with
    | '"' :: cs' => do
      let (k, rest) ← lexStr cs'
      match skipWs rest with
      | ':' :: rest' => do
        let (v, rest'') ← parseV fuel rest'
        match skipWs rest'' with
        | ',' :: rest3 => parseObjItems fuel rest3 (acc ++ [(k, v)])
        | '\x7d' :: rest3 => some (.obj (acc ++ [(k, v)]), rest3)
        | _ => none
      | _ => none
    | _ => none

end

/-- `JSON.parse(s)`: `none` models a thrown `SyntaxError`. -/
def jsonParse (s : String) : Option JVal :=
  match parseV (s.length + 1) s.toList with
  | none => none
  | some (v, rest) => if skipWs rest = [] then some v else none

/-! ## Blob containers

A container folder is an association list from blob name to stored value,
generic in the value type so the same operations serve the `batch-jobs`
container (values: job records) and the `output` container (values: file
contents). -/

/-- Look up a blob by name (`download` / `exists`). -/
def lookupBlob {β : Type} : List (String × β) → String → Option β
  | [], _ => none
  | (k, v) :: es, id => if k = id then some v else lookupBlob es id

/-- Upload a blob, overwriting any existing blob of the same name. -/
def putBlob {β : Type} (p : List (String × β)) (id : String) (v : β) : List (String × β) :=
  if (lookupBlob p id).isSome then
    p.map (fun e => if e.1 = id then (id, v) else e)
  else
    p ++ [(id, v)]

/-- `deleteIfExists`. -/
def delBlob {β : Type} (p : List (String × β)) (id : String) : List (String × β) :=
  p.filter (fun e => !(e.1 = id))

theorem lookupBlob_putBlob_self {β : Type} (p : List (String × β)) (id : String) (v : β) :
    lookupBlob (putBlob p id v) id = some v := by
  induction p with
  | nil => simp [putBlob, lookupBlob]
  | cons e es ih =>
    by_cases h : e.1 = id
    · simp [putBlob, lookupBlob, h]
    · by_cases hs : (lookupBlob es id).isSome
      · simp only [putBlob, lookupBlob, h, if_neg, if_false, hs, if_true, List.map_cons] at ih ⊢
        simpa [h] using ih
      · simp only [putBlob, lookupBlob, h, if_false, hs, List.cons_append] at ih ⊢
        simpa [h] using ih

theorem lookupBlob_map_replace {β : Type} (p : List (String × β)) (id id' : String) (v : β)
    (h : id' ≠ id) :
    lookupBlob (p.map (fun e => if e.1 = id then (id, v) else e)) id' = lookupBlob p id' := by
  induction p with
  | nil => rfl
  | cons e es ih =>
    simp only [List.map_cons]
    by_cases he : e.1 = id
    · rw [if_pos he]
      simp [lookupBlob, he, Ne.symm h, ih]
    · rw [if_neg he]
      simp [lookupBlob, ih]

theorem lookupBlob_append_single {β : Type} (p : List (String × β)) (id id' : String) (v : β)
    (h : id' ≠ id) : lookupBlob (p ++ [(id, v)]) id' = lookupBlob p id' := by
  induction p with
  | nil => simp [lookupBlob, Ne.symm h]
  | cons e es ih =>
    by_cases he : e.1 = id'
    · simp [lookupBlob, he, ih]
    · simp [lookupBlob, he, ih]

theorem lookupBlob_putBlob_ne {β : Type} (p : List (String × β)) (id id' : String) (v : β)
    (h : id' ≠ id) : lookupBlob (putBlob p id v) id' = lookupBlob p id' := by
  unfold putBlob
  split
  · exact lookupBlob_map_replace p id id' v h
  · exact lookupBlob_append_single p id id' v h

theorem lookupBlob_delBlob_self {β : Type} (p : List (String × β)) (id : String) :
    lookupBlob (delBlob p id) id = none := by
  induction p with
  | nil => rfl
  | cons e es ih =>
    by_cases he : e.1 = id
    · simpa [delBlob, he] using ih
    · simpa [delBlob, lookupBlob, he] using ih

theorem lookupBlob_delBlob_ne {β : Type} (p : List (String × β)) (id id' : String)
    (h : id' ≠ id) : lookupBlob (delBlob p id) id' = lookupBlob p id' := by
  induction p with
  | nil => rfl
  | cons e es ih =>
    by_cases he : e.1 = id
    · simpa [delBlob, lookupBlob, List.filter_cons, he, Ne.symm h] using ih
    · by_cases he' : e.1 = id'
      · simp [delBlob, lookupBlob, List.filter_cons, he, he', h]
      · simpa [delBlob, lookupBlob, List.filter_cons, he, he'] using ih

/-! ## Job records and the `batch-jobs` container

The container holds one JSON blob per job at `"{folder}/{batchId}.json"`;
the folder encodes the lifecycle state.  A job record is the JSON object
the storage helpers write; `none` conflates an absent key with a JSON
`null`, which no embedded operation distinguishes. -/

/-- A persisted batch-job record (union of the fields either storage
variant ever writes). -/
structure Job where
  batchId : String
  inputFileId : Option String := none
  inputBlobPath : Option String := none
  recordCount : Option Nat := none
  objectName : Option String := none
  config : Option String := none
  status : String := "pending"
  submittedAt : Nat := 0
  completedAt : Option Nat := none
  outputFileId : Option String := none
  errorFileId : Option String := none
  errorMessage : Option String := none
  retryCount : Option Nat := none
  outputBlobPath : Option String := none
  processedAt : Option Nat := none
deriving DecidableEq, Repr

/-- The four lifecycle folders of the `batch-jobs` container. -/
inductive Folder where
  | pending
  | completed
  | processed
  | failed
deriving DecidableEq, Repr

/-- The `batch-jobs` container: one association list per folder. -/
structure Store where
  pending : List (String × Job) := []
  completed : List (String × Job) := []
  processed : List (String × Job) := []
  failed : List (String × Job) := []
deriving DecidableEq, Repr

def emptyStore : Store := {}

def Store.part (s : Store) : Folder → List (String × Job)
  | .pending => s.pending
  | .completed => s.completed
  | .processed => s.processed
  | .failed => s.failed

def Store.setPart (s : Store) : Folder → List (String × Job) → Store
  | .pending, p => { s with pending := p }
  | .completed, p => { s with completed := p }
  | .processed, p => { s with processed := p }
  | .failed, p => { s with failed := p }

/-- The input of `createBatchJob` (the fields the submitter passes). -/
structure JobData where
  batchId : String
  inputFileId : String
  inputBlobPath : String
  recordCount : Nat
  objectName : Option String := none
  config : Option String := none
deriving DecidableEq, Repr

/-! ### First storage variant (`batchJobStorage.js`, compact file) -/

/-- `createBatchJob(data)`: build a fresh `pending` record and upload it at
`pending/{batchId}.json`.  The source performs no existence check: the
upload overwrites any pending record of the same id and ignores the other
folders. -/
def createBatchJob (s : Store) (d : JobData) (now : Nat) : Store × Job :=
  let job : Job :=
    { batchId := d.batchId
      inputFileId := some d.inputFileId
      inputBlobPath := some d.inputBlobPath
      recordCount := some d.recordCount
      objectName := d.objectName
      config := d.config
      status := "pending"
      submittedAt := now
      completedAt := none
      outputFileId := none
      errorMessage := none
      retryCount := some 0 }
  ({ s with pending := putBlob s.pending d.batchId job }, job)

/-- `getPendingJobs()`: every record in the `pending` folder. -/
def getPendingJobs (s : Store) : List Job :=
  s.pending.map (fun e => e.2)

/-- `getJob(batchId)`: searches, in order, `pending`, `completed`,
`processed`, `failed`; `null` when in none of them. -/
def getJob (s : Store) (batchId : String) : Option Job :=
  match lookupBlob s.pending batchId with
  | some j => some j
  | none =>
  match lookupBlob s.completed batchId with
  | some j => some j
  | none =>
  match lookupBlob s.processed batchId with
  | some j => some j
  | none => lookupBlob s.failed batchId

/-- The field updates spread into a record by `moveJob` (`{...job,
...updates}`); an outer `none` means the key is absent from `updates`. -/
structure Updates where
  status : Option String := none
  completedAt : Option (Option Nat) := none
  outputFileId : Option (Option String) := none
  errorFileId : Option (Option String) := none
  errorMessage : Option (Option String) := none
  outputBlobPath : Option (Option String) := none
  processedAt : Option (Option Nat) := none
  retryCount : Option (Option Nat) := none
deriving DecidableEq, Repr

/-- `{...job, ...updates}`. -/
def applyUpdates (j : Job) (u : Updates) : Job :=
  { j with
    status := u.status.getD j.status
    completedAt := u.completedAt.getD j.completedAt
    outputFileId := u.outputFileId.getD j.outputFileId
    errorFileId := u.errorFileId.getD j.errorFileId
    errorMessage := u.errorMessage.getD j.errorMessage
    outputBlobPath := u.outputBlobPath.getD j.outputBlobPath
    processedAt := u.processedAt.getD j.processedAt
    retryCount := u.retryCount.getD j.retryCount }

/-- `moveJob(batchId, fromFolder, toFolder, updates)`: download from the
source folder (a missing blob raises, before anything is written), merge
the updates, upload into the target folder, then `deleteIfExists` the
source copy. -/
def moveJob (s : Store) (batchId : String) (fromF toF : Folder) (u : Updates) :
    Option (Store × Job) :=
  match lookupBlob (s.part fromF) batchId with
  | none => none
  | some job =>
    let j := applyUpdates job u
    let s1 := s.setPart toF (putBlob (s.part toF) batchId j)
    let s2 := s1.setPart fromF (delBlob (s1.part fromF) batchId)
    some (s2, j)

/-- `markCompleted(batchId, outputFileId, errorFileId = null)`. -/
def markCompleted (s : Store) (batchId : String) (outputFileId : String)
    (errorFileId : Option String) (now : Nat) : Option (Store × Job) :=
  moveJob s batchId .pending .completed
    { status := some "completed"
      outputFileId := some (some outputFileId)
      errorFileId := some errorFileId
      completedAt := some (some now) }

/-- `markProcessed(batchId, outputBlobPath)`. -/
def markProcessed (s : Store) (batchId : String) (outputBlobPath : String)
    (now : Nat) : Option (Store × Job) :=
  moveJob s batchId .completed .processed
    { status := some "processed"
      outputBlobPath := some (some outputBlobPath)
      processedAt := some (some now) }

/-- `markFailed(batchId, errorMessage)`. -/
def markFailed (s : Store) (batchId : String) (errorMessage : String)
    (now : Nat) : Option (Store × Job) :=
  moveJob s batchId .pending .failed
    { status := some "failed"
      errorMessage := some (some errorMessage)
      completedAt := some (some now) }

/-- `incrementRetry(batchId)`: read `pending/{batchId}.json` (raises when
missing), bump `retryCount` (`(job.retryCount || 0) + 1`), overwrite in
place. -/
def incrementRetry (s : Store) (batchId : String) : Option (Store × Job) :=
  match lookupBlob s.pending batchId with
  | none => none
  | some job =>
    let j := { job with retryCount := some (job.retryCount.getD 0 + 1) }
    some ({ s with pending := putBlob s.pending batchId j }, j)

/-! ### Second storage variant (`batchJobStorage.js`, verbose file)

Same container layout; the differences that matter are recorded per
function. -/

namespace Storage2

/-- `createBatchJob(jobData)` of the second variant: same unconditional
upload into `pending/`, record without `objectName`/`config` and with an
explicit `errorFileId: null`. -/
def createBatchJob (s : Store) (d : JobData) (now : Nat) : Store × Job :=
  let job : Job :=
    { batchId := d.batchId
      inputFileId := some d.inputFileId
      status := "pending"
      inputBlobPath := some d.inputBlobPath
      recordCount := some d.recordCount
      submittedAt := now
      completedAt := none
      outputFileId := none
      errorFileId := none
      errorMessage := none
      retryCount := some 0 }
  ({ s with pending := putBlob s.pending d.batchId job }, job)

/-- `getPendingBatchJobs()`. -/
def getPendingBatchJobs (s : Store) : List Job :=
  s.pending.map (fun e => e.2)

/-- `getBatchJob(batchId)`: checks `pending`, then `completed`, then
`failed` — the `processed` folder is never consulted. -/
def getBatchJob (s : Store) (batchId : String) : Option Job :=
  match lookupBlob s.pending batchId with
  | some j => some j
  | none =>
  match lookupBlob s.completed batchId with
  | some j => some j
  | none => lookupBlob s.failed batchId

/-- `markBatchCompleted(batchId, outputFileId, errorFileId = null)`:
download from `pending/` (raises when missing), update the status fields,
upload into `completed/`, then delete the pending copy. -/
def markBatchCompleted (s : Store) (batchId : String) (outputFileId : String)
    (errorFileId : Option String) (now : Nat) : Option (Store × Job) :=
  match lookupBlob s.pending batchId with
  | none => none
  | some job =>
    let j := { job with
      status := "completed"
      outputFileId := some outputFileId
      errorFileId := errorFileId
      completedAt := some now }
    some ({ s with
            completed := putBlob s.completed batchId j
            pending := delBlob s.pending batchId }, j)

/-- `markBatchFailed(batchId, errorMessage)`. -/
def markBatchFailed (s : Store) (batchId : String) (errorMessage : String)
    (now : Nat) : Option (Store × Job) :=
  match lookupBlob s.pending batchId with
  | none => none
  | some job =>
    let j := { job with
      status := "failed"
      errorMessage := some errorMessage
      completedAt := some now }
    some ({ s with
            failed := putBlob s.failed batchId j
            pending := delBlob s.pending batchId }, j)

/-- `markBatchProcessed(batchId, outputBlobPath)`: moves from `completed/`
to `processed/`. -/
def markBatchProcessed (s : Store) (batchId : String) (outputBlobPath : String)
    (now : Nat) : Option (Store × Job) :=
  match lookupBlob s.completed batchId with
  | none => none
  | some job =>
    let j := { job with
      status := "processed"
      outputBlobPath := some outputBlobPath
      processedAt := some now }
    some ({ s with
            processed := putBlob s.processed batchId j
            completed := delBlob s.completed batchId }, j)

/-- `incrementRetryCount(batchId)`. -/
def incrementRetryCount (s : Store) (batchId : String) : Option (Store × Job) :=
  match lookupBlob s.pending batchId with
  | none => none
  | some job =>
    let j := { job with retryCount := some (job.retryCount.getD 0 + 1) }
    some ({ s with pending := putBlob s.pending batchId j }, j)

end Storage2

/-- The two storage variants perform the same `pending → completed` move. -/
theorem markBatchCompleted_eq_markCompleted (s : Store) (id ofid : String)
    (efid : Option String) (now : Nat) :
    Storage2.markBatchCompleted s id ofid efid now = markCompleted s id ofid efid now := by
  unfold Storage2.markBatchCompleted markCompleted moveJob
  simp only [Store.part, Store.setPart]
  cases lookupBlob s.pending id <;> rfl

/-- The two storage variants perform the same `pending → failed` move. -/
theorem markBatchFailed_eq_markFailed (s : Store) (id msg : String) (now : Nat) :
    Storage2.markBatchFailed s id msg now = markFailed s id msg now := by
  unfold Storage2.markBatchFailed markFailed moveJob
  simp only [Store.part, Store.setPart]
  cases lookupBlob s.pending id <;> rfl

/-- The two storage variants perform the same `completed → processed` move. -/
theorem markBatchProcessed_eq_markProcessed (s : Store) (id path : String) (now : Nat) :
    Storage2.markBatchProcessed s id path now = markProcessed s id path now := by
  unfold Storage2.markBatchProcessed markProcessed moveJob
  simp only [Store.part, Store.setPart]
  cases lookupBlob s.completed id <;> rfl

/-- The two retry-increment helpers agree. -/
theorem incrementRetryCount_eq_incrementRetry (s : Store) (id : String) :
    Storage2.incrementRetryCount s id = incrementRetry s id := by
  unfold Storage2.incrementRetryCount incrementRetry
  cases lookupBlob s.pending id <;> rfl

/-! ## Observable lifecycle state -/

/-- Whether a record for `id` is stored under folder `f`. -/
def hasJob (s : Store) (f : Folder) (id : String) : Bool :=
  (lookupBlob (s.part f) id).isSome

/-- The observable lifecycle state of `id`: the first folder of `getJob`'s
search order holding a record for it. -/
def statusOf (s : Store) (id : String) : Option Folder :=
  if hasJob s .pending id then some .pending
  else if hasJob s .completed id then some .completed
  else if hasJob s .processed id then some .processed
  else if hasJob s .failed id then some .failed
  else none

/-- At most one folder holds a record for any id (§3 invariant "exactly
one persisted record per jobId"). -/
def StoreInv (s : Store) : Prop :=
  ∀ id f g, hasJob s f id = true → hasJob s g id = true → f = g

theorem isSome_put_self {β : Type} (p : List (String × β)) (b : String) (v : β) :
    (lookupBlob (putBlob p b v) b).isSome = true := by
  rw [lookupBlob_putBlob_self]
  rfl

theorem isSome_put_ne {β : Type} (p : List (String × β)) (b id : String) (v : β)
    (h : id ≠ b) : (lookupBlob (putBlob p b v) id).isSome = (lookupBlob p id).isSome := by
  rw [lookupBlob_putBlob_ne p b id v h]

theorem isSome_del_self {β : Type} (p : List (String × β)) (b : String) :
    (lookupBlob (delBlob p b) b).isSome = false := by
  rw [lookupBlob_delBlob_self]
  rfl

theorem isSome_del_ne {β : Type} (p : List (String × β)) (b id : String)
    (h : id ≠ b) : (lookupBlob (delBlob p b) id).isSome = (lookupBlob p id).isSome := by
  rw [lookupBlob_delBlob_ne p b id h]

theorem statusOf_congr (s s' : Store) (id : String)
    (h : ∀ f, hasJob s' f id = hasJob s f id) : statusOf s' id = statusOf s id := by
  unfold statusOf
  rw [h .pending, h .completed, h .processed, h .failed]

theorem statusOf_eq_none_iff (s : Store) (id : String) :
    statusOf s id = none ↔ ∀ f, hasJob s f id = false := by
  constructor
  · intro h f
    unfold statusOf at h
    split_ifs at h with h1 h2 h3 h4
    cases f
    · exact eq_false_of_ne_true h1
    · exact eq_false_of_ne_true h2
    · exact eq_false_of_ne_true h3
    · exact eq_false_of_ne_true h4
  · intro hall
    unfold statusOf
    simp [hall Folder.pending, hall Folder.completed, hall Folder.processed, hall Folder.failed]

theorem statusOf_of_pending (s : Store) (id : String)
    (h : hasJob s .pending id = true) : statusOf s id = some .pending := by
  unfold statusOf
  simp [h]

theorem statusOf_of_completed (s : Store) (id : String) (hinv : StoreInv s)
    (h : hasJob s .completed id = true) : statusOf s id = some .completed := by
  have hp : hasJob s .pending id = false := by
    by_contra hc
    have := hinv id .pending .completed (by simpa using hc) h
    simp at this
  unfold statusOf
  simp [hp, h]

theorem statusOf_of_processed (s : Store) (id : String) (hinv : StoreInv s)
    (h : hasJob s .processed id = true) : statusOf s id = some .processed := by
  have hp : hasJob s .pending id = false := by
    by_contra hc
    have := hinv id .pending .processed (by simpa using hc) h
    simp at this
  have hcp : hasJob s .completed id = false := by
    by_contra hc
    have := hinv id .completed .processed (by simpa using hc) h
    simp at this
  unfold statusOf
  simp [hp, hcp, h]

theorem statusOf_of_failed (s : Store) (id : String) (hinv : StoreInv s)
    (h : hasJob s .failed id = true) : statusOf s id = some .failed := by
  have hp : hasJob s .pending id = false := by
    by_contra hc
    have := hinv id .pending .failed (by simpa using hc) h
    simp at this
  have hcp : hasJob s .completed id = false := by
    by_contra hc
    have := hinv id .completed .failed (by simpa using hc) h
    simp at this
  have hpr : hasJob s .processed id = false := by
    by_contra hc
    have := hinv id .processed .failed (by simpa using hc) h
    simp at this
  unfold statusOf
  simp [hp, hcp, hpr, h]

/-! ## Store operations as a transition system (claim C1) -/

/-- One invocation of a storage helper, either variant (`2` marks the
verbose storage file). -/
inductive Op where
  | create (d : JobData) (now : Nat)
  | create2 (d : JobData) (now : Nat)
  | complete (id ofid : String) (efid : Option String) (now : Nat)
  | complete2 (id ofid : String) (efid : Option String) (now : Nat)
  | processOp (id path : String) (now : Nat)
  | process2 (id path : String) (now : Nat)
  | failOp (id msg : String) (now : Nat)
  | fail2 (id msg : String) (now : Nat)
  | retryOp (id : String)
  | retry2 (id : String)
deriving DecidableEq, Repr

/-- Apply one helper invocation to the container.  A helper that raises
(missing source blob) raises before writing anything, so the container is
unchanged in its `none` case. -/
def step (s : Store) : Op → Store
  | .create d now => (createBatchJob s d now).1
  | .create2 d now => (Storage2.createBatchJob s d now).1
  | .complete id ofid efid now =>
      match markCompleted s id ofid efid now with
      | some (s', _) => s'
      | none => s
  | .complete2 id ofid efid now =>
      match Storage2.markBatchCompleted s id ofid efid now with
      | some (s', _) => s'
      | none => s
  | .processOp id path now =>
      match markProcessed s id path now with
      | some (s', _) => s'
      | none => s
  | .process2 id path now =>
      match Storage2.markBatchProcessed s id path now with
      | some (s', _) => s'
      | none => s
  | .failOp id msg now =>
      match markFailed s id msg now with
      | some (s', _) => s'
      | none => s
  | .fail2 id msg now =>
      match Storage2.markBatchFailed s id msg now with
      | some (s', _) => s'
      | none => s
  | .retryOp id =>
      match incrementRetry s id with
      | some (s', _) => s'
      | none => s
  | .retry2 id =>
      match Storage2.incrementRetryCount s id with
      | some (s', _) => s'
      | none => s

/-- A creation is fresh: no record for the id exists in any folder. -/
def freshOk (s : Store) : Op → Bool
  | .create d _ => (statusOf s d.batchId).isNone
  | .create2 d _ => (statusOf s d.batchId).isNone
  | _ => true

/-- Every creation along the trace is fresh at the moment it runs (the
single-creation discipline of §3: a job is created only once, by the
submitter). -/
def goodTrace : Store → List Op → Bool
  | _, [] => true
  | s, op :: ops => freshOk s op && goodTrace (step s op) ops

/-- Run a sequence of helper invocations. -/
def run : Store → List Op → Store
  | s, [] => s
  | s, op :: ops => run (step s op) ops

/-- The successive observable states of `id` along a trace (initial state
included). -/
def statusTrace (s : Store) (ops : List Op) (id : String) : List (Option Folder) :=
  match ops with
  | [] => [statusOf s id]
  | op :: ops => statusOf s id :: statusTrace (step s op) ops id

/-- The directed edges of the §4.3 state machine, plus stuttering and
first creation. -/
def allowedEdge : Option Folder → Option Folder → Bool
  | none, none => true
  | none, some .pending => true
  | some .pending, some .pending => true
  | some .pending, some .completed => true
  | some .pending, some .failed => true
  | some .completed, some .completed => true
  | some .completed, some .processed => true
  | some .processed, some .processed => true
  | some .failed, some .failed => true
  | _, _ => false

theorem allowedEdge_refl (x : Option Folder) : allowedEdge x x = true := by
  rcases x with _ | f
  · rfl
  · cases f <;> rfl

theorem statusOf_eq_of_unique (s : Store) (id : String) (f0 : Folder)
    (h : ∀ f, hasJob s f id = decide (f = f0)) : statusOf s id = some f0 := by
  cases f0 <;>
    simp [statusOf, h Folder.pending, h Folder.completed, h Folder.processed, h Folder.failed]

/-- Consequences of a folder-to-folder move of `b`'s record for observable
states and the uniqueness invariant, given the move's effect on `hasJob`. -/
theorem edges_inv_of_move (s s' : Store) (src dst : Folder) (b : String)
    (hchar : ∀ f id, hasJob s' f id =
      if f = src then (if id = b then false else hasJob s f id)
      else if f = dst then (if id = b then true else hasJob s f id)
      else hasJob s f id)
    (hinv : StoreInv s) (hit : hasJob s src b = true) (hsd : src ≠ dst) :
    statusOf s' b = some dst ∧ (∀ id, id ≠ b → statusOf s' id = statusOf s id) ∧
      StoreInv s' := by
  have hmem : ∀ f, hasJob s f b = true → f = src := fun f hf => hinv b f src hf hit
  have hb : ∀ f, hasJob s' f b = decide (f = dst) := by
    intro f
    rw [hchar f b]
    by_cases h1 : f = src
    · simp [h1, hsd]
    · by_cases h2 : f = dst
      · have hds : ¬dst = src := fun h => hsd h.symm
        simp [h1, h2, hds]
      · simp only [h1, if_false, h2, if_false]
        have : ¬hasJob s f b = true := fun hf => h1 (hmem f hf)
        simp [Bool.not_eq_true] at this
        simp [this, h2]
  have hne : ∀ id, id ≠ b → ∀ f, hasJob s' f id = hasJob s f id := by
    intro id hid f
    rw [hchar f id]
    by_cases h1 : f = src
    · simp [h1, hid]
    · by_cases h2 : f = dst
      · simp [h1, h2, hid]
      · simp [h1, h2]
  refine ⟨statusOf_eq_of_unique s' b dst hb, fun id hid => statusOf_congr s s' id (hne id hid), ?_⟩
  intro id f g hf hg
  by_cases hid : id = b
  · subst hid
    rw [hb f] at hf
    rw [hb g] at hg
    simp at hf hg
    rw [hf, hg]
  · rw [hne id hid f] at hf
    rw [hne id hid g] at hg
    exact hinv id f g hf hg

/-- Consequences of a fresh creation (upload of a new record into
`pending/`). -/
theorem edges_inv_of_create (s : Store) (b : String) (j : Job)
    (hinv : StoreInv s) (hfresh : ∀ f, hasJob s f b = false) :
    statusOf { s with pending := putBlob s.pending b j } b = some .pending ∧
    (∀ id, id ≠ b →
      statusOf { s with pending := putBlob s.pending b j } id = statusOf s id) ∧
    StoreInv { s with pending := putBlob s.pending b j } := by
  set s' : Store := { s with pending := putBlob s.pending b j } with hs'
  have hchar : ∀ f id, hasJob s' f id =
      if f = Folder.pending then (if id = b then true else hasJob s f id)
      else hasJob s f id := by
    intro f id
    cases f
    · by_cases hid : id = b
      · subst hid
        simp [hasJob, Store.part, hs', isSome_put_self]
      · simp [hasJob, Store.part, hs', hid, isSome_put_ne s.pending b id j hid]
    · simp [hasJob, Store.part, hs']
    · simp [hasJob, Store.part, hs']
    · simp [hasJob, Store.part, hs']
  have hb : ∀ f, hasJob s' f b = decide (f = Folder.pending) := by
    intro f
    rw [hchar f b]
    by_cases h1 : f = Folder.pending
    · simp [h1]
    · simp [h1, hfresh f]
  have hne : ∀ id, id ≠ b → ∀ f, hasJob s' f id = hasJob s f id := by
    intro id hid f
    rw [hchar f id]
    by_cases h1 : f = Folder.pending
    · simp [h1, hid]
    · simp [h1]
  refine ⟨statusOf_eq_of_unique s' b _ hb, fun id hid => statusOf_congr s s' id (hne id hid), ?_⟩
  intro id f g hf hg
  by_cases hid : id = b
  · subst hid
    rw [hb f] at hf
    rw [hb g] at hg
    simp at hf hg
    rw [hf, hg]
  · rw [hne id hid f] at hf
    rw [hne id hid g] at hg
    exact hinv id f g hf hg

/-- Overwriting the pending record of `b` in place (retry increment)
changes no observable state. -/
theorem edges_inv_of_overwrite (s : Store) (b : String) (j : Job)
    (hit : hasJob s .pending b = true) :
    (∀ id, statusOf { s with pending := putBlob s.pending b j } id = statusOf s id) ∧
    (StoreInv s → StoreInv { s with pending := putBlob s.pending b j }) := by
  set s' : Store := { s with pending := putBlob s.pending b j } with hs'
  have hall : ∀ f id, hasJob s' f id = hasJob s f id := by
    intro f id
    cases f
    · by_cases hid : id = b
      · subst hid
        simp only [hasJob, Store.part, hs']
        rw [isSome_put_self]
        exact hit.symm
      · simp only [hasJob, Store.part, hs']
        exact isSome_put_ne s.pending b id j hid
    · simp [hasJob, Store.part, hs']
    · simp [hasJob, Store.part, hs']
    · simp [hasJob, Store.part, hs']
  refine ⟨fun id => statusOf_congr s s' id (fun f => hall f id), ?_⟩
  intro hinv id f g hf hg
  rw [hall f id] at hf
  rw [hall g id] at hg
  exact hinv id f g hf hg

/-- Single-step soundness: from a store satisfying the uniqueness
invariant, any helper invocation (fresh in the case of creation) moves every
id's observable state along an allowed edge and preserves the invariant. -/
theorem step_edges_inv (s : Store) (op : Op) (hinv : StoreInv s)
    (hok : freshOk s op = true) :
    (∀ id, allowedEdge (statusOf s id) (statusOf (step s op) id) = true) ∧
      StoreInv (step s op) := by
  cases op with
  | create d now =>
    have hfresh : ∀ f, hasJob s f d.batchId = false := by
      rw [← statusOf_eq_none_iff]
      simpa [freshOk, Option.isNone_iff_eq_none] using hok
    have hstep : step s (.create d now) =
        { s with pending := putBlob s.pending d.batchId (createBatchJob s d now).2 } := rfl
    rw [hstep]
    obtain ⟨h1, h2, h3⟩ :=
      edges_inv_of_create s d.batchId (createBatchJob s d now).2 hinv hfresh
    refine ⟨?_, h3⟩
    intro id
    by_cases hid : id = d.batchId
    · subst hid
      rw [h1, (statusOf_eq_none_iff s d.batchId).mpr hfresh]
      rfl
    · rw [h2 id hid]
      exact allowedEdge_refl _
  | create2 d now =>
    have hfresh : ∀ f, hasJob s f d.batchId = false := by
      rw [← statusOf_eq_none_iff]
      simpa [freshOk, Option.isNone_iff_eq_none] using hok
    have hstep : step s (.create2 d now) =
        { s with pending := putBlob s.pending d.batchId (Storage2.createBatchJob s d now).2 } := rfl
    rw [hstep]
    obtain ⟨h1, h2, h3⟩ :=
      edges_inv_of_create s d.batchId (Storage2.createBatchJob s d now).2 hinv hfresh
    refine ⟨?_, h3⟩
    intro id
    by_cases hid : id = d.batchId
    · subst hid
      rw [h1, (statusOf_eq_none_iff s d.batchId).mpr hfresh]
      rfl
    · rw [h2 id hid]
      exact allowedEdge_refl _
  | complete b ofid efid now =>
    cases hit : lookupBlob s.pending b with
    | none =>
      have hstep : step s (.complete b ofid efid now) = s := by
        simp [step, markCompleted, moveJob, Store.part, hit]
      rw [hstep]
      exact ⟨fun id => allowedEdge_refl _, hinv⟩
    | some job =>
      have hithas : hasJob s .pending b = true := by
        simp [hasJob, Store.part, hit]
      have hstep : step s (.complete b ofid efid now) =
          { s with completed := putBlob s.completed b (applyUpdates job { status := some "completed", outputFileId := some (some ofid), errorFileId := some efid, completedAt := some (some now) }),
                   pending := delBlob s.pending b } := by
        simp [step, markCompleted, moveJob, Store.part, Store.setPart, hit]
      set j : Job := applyUpdates job { status := some "completed", outputFileId := some (some ofid), errorFileId := some efid, completedAt := some (some now) } with hj
      set s' : Store := { s with completed := putBlob s.completed b j, pending := delBlob s.pending b } with hs'
      have hchar : ∀ f id, hasJob s' f id =
          if f = Folder.pending then (if id = b then false else hasJob s f id)
          else if f = Folder.completed then (if id = b then true else hasJob s f id)
          else hasJob s f id := by
        intro f id
        cases f
        · by_cases hid : id = b
          · subst hid
            simp [hasJob, Store.part, hs', isSome_del_self]
          · simp [hasJob, Store.part, hs', hid, isSome_del_ne s.pending b id hid]
        · by_cases hid : id = b
          · subst hid
            simp [hasJob, Store.part, hs', isSome_put_self]
          · simp [hasJob, Store.part, hs', hid, isSome_put_ne s.completed b id j hid]
        · simp [hasJob, Store.part, hs']
        · simp [hasJob, Store.part, hs']
      obtain ⟨h1, h2, h3⟩ :=
        edges_inv_of_move s s' .pending .completed b hchar hinv hithas (by decide)
      rw [hstep]
      refine ⟨?_, h3⟩
      intro id
      by_cases hid : id = b
      · subst hid
        rw [h1, statusOf_of_pending s id hithas]
        rfl
      · rw [h2 id hid]
        exact allowedEdge_refl _
  | complete2 b ofid efid now =>
    rw [show step s (.complete2 b ofid efid now) = step s (.complete b ofid efid now) from by
      simp [step, markBatchCompleted_eq_markCompleted]]
    cases hit : lookupBlob s.pending b with
    | none =>
      have hstep : step s (.complete b ofid efid now) = s := by
        simp [step, markCompleted, moveJob, Store.part, hit]
      rw [hstep]
      exact ⟨fun id => allowedEdge_refl _, hinv⟩
    | some job =>
      have hithas : hasJob s .pending b = true := by
        simp [hasJob, Store.part, hit]
      have hstep : step s (.complete b ofid efid now) =
          { s with completed := putBlob s.completed b (applyUpdates job { status := some "completed", outputFileId := some (some ofid), errorFileId := some efid, completedAt := some (some now) }),
                   pending := delBlob s.pending b } := by
        simp [step, markCompleted, moveJob, Store.part, Store.setPart, hit]
      set j : Job := applyUpdates job { status := some "completed", outputFileId := some (some ofid), errorFileId := some efid, completedAt := some (some now) } with hj
      set s' : Store := { s with completed := putBlob s.completed b j, pending := delBlob s.pending b } with hs'
      have hchar : ∀ f id, hasJob s' f id =
          if f = Folder.pending then (if id = b then false else hasJob s f id)
          else if f = Folder.completed then (if id = b then true else hasJob s f id)
          else hasJob s f id := by
        intro f id
        cases f
        · by_cases hid : id = b
          · subst hid
            simp [hasJob, Store.part, hs', isSome_del_self]
          · simp [hasJob, Store.part, hs', hid, isSome_del_ne s.pending b id hid]
        · by_cases hid : id = b
          · subst hid
            simp [hasJob, Store.part, hs', isSome_put_self]
          · simp [hasJob, Store.part, hs', hid, isSome_put_ne s.completed b id j hid]
        · simp [hasJob, Store.part, hs']
        · simp [hasJob, Store.part, hs']
      obtain ⟨h1, h2, h3⟩ :=
        edges_inv_of_move s s' .pending .completed b hchar hinv hithas (by decide)
      rw [hstep]
      refine ⟨?_, h3⟩
      intro id
      by_cases hid : id = b
      · subst hid
        rw [h1, statusOf_of_pending s id hithas]
        rfl
      · rw [h2 id hid]
        exact allowedEdge_refl _
  | processOp b path now =>
    cases hit : lookupBlob s.completed b with
    | none =>
      have hstep : step s (.processOp b path now) = s := by
        simp [step, markProcessed, moveJob, Store.part, hit]
      rw [hstep]
      exact ⟨fun id => allowedEdge_refl _, hinv⟩
    | some job =>
      have hithas : hasJob s .completed b = true := by
        simp [hasJob, Store.part, hit]
      have hstep : step s (.processOp b path now) =
          { s with processed := putBlob s.processed b (applyUpdates job { status := some "processed", outputBlobPath := some (some path), processedAt := some (some now) }),
                   completed := delBlob s.completed b } := by
        simp [step, markProcessed, moveJob, Store.part, Store.setPart, hit]
      set j : Job := applyUpdates job { status := some "processed", outputBlobPath := some (some path), processedAt := some (some now) } with hj
      set s' : Store := { s with processed := putBlob s.processed b j, completed := delBlob s.completed b } with hs'
      have hchar : ∀ f id, hasJob s' f id =
          if f = Folder.completed then (if id = b then false else hasJob s f id)
          else if f = Folder.processed then (if id = b then true else hasJob s f id)
          else hasJob s f id := by
        intro f id
        cases f
        · simp [hasJob, Store.part, hs']
        · by_cases hid : id = b
          · subst hid
            simp [hasJob, Store.part, hs', isSome_del_self]
          · simp [hasJob, Store.part, hs', hid, isSome_del_ne s.completed b id hid]
        · by_cases hid : id = b
          · subst hid
            simp [hasJob, Store.part, hs', isSome_put_self]
          · simp [hasJob, Store.part, hs', hid, isSome_put_ne s.processed b id j hid]
        · simp [hasJob, Store.part, hs']
      obtain ⟨h1, h2, h3⟩ :=
        edges_inv_of_move s s' .completed .processed b hchar hinv hithas (by decide)
      rw [hstep]
      refine ⟨?_, h3⟩
      intro id
      by_cases hid : id = b
      · subst hid
        rw [h1, statusOf_of_completed s id hinv hithas]
        rfl
      · rw [h2 id hid]
        exact allowedEdge_refl _
  | process2 b path now =>
    rw [show step s (.process2 b path now) = step s (.processOp b path now) from by
      simp [step, markBatchProcessed_eq_markProcessed]]
    cases hit : lookupBlob s.completed b with
    | none =>
      have hstep : step s (.processOp b path now) = s := by
        simp [step, markProcessed, moveJob, Store.part, hit]
      rw [hstep]
      exact ⟨fun id => allowedEdge_refl _, hinv⟩
    | some job =>
      have hithas : hasJob s .completed b = true := by
        simp [hasJob, Store.part, hit]
      have hstep : step s (.processOp b path now) =
          { s with processed := putBlob s.processed b (applyUpdates job { status := some "processed", outputBlobPath := some (some path), processedAt := some (some now) }),
                   completed := delBlob s.completed b } := by
        simp [step, markProcessed, moveJob, Store.part, Store.setPart, hit]
      set j : Job := applyUpdates job { status := some "processed", outputBlobPath := some (some path), processedAt := some (some now) } with hj
      set s' : Store := { s with processed := putBlob s.processed b j, completed := delBlob s.completed b } with hs'
      have hchar : ∀ f id, hasJob s' f id =
          if f = Folder.completed then (if id = b then false else hasJob s f id)
          else if f = Folder.processed then (if id = b then true else hasJob s f id)
          else hasJob s f id := by
        intro f id
        cases f
        · simp [hasJob, Store.part, hs']
        · by_cases hid : id = b
          · subst hid
            simp [hasJob, Store.part, hs', isSome_del_self]
          · simp [hasJob, Store.part, hs', hid, isSome_del_ne s.completed b id hid]
        · by_cases hid : id = b
          · subst hid
            simp [hasJob, Store.part, hs', isSome_put_self]
          · simp [hasJob, Store.part, hs', hid, isSome_put_ne s.processed b id j hid]
        · simp [hasJob, Store.part, hs']
      obtain ⟨h1, h2, h3⟩ :=
        edges_inv_of_move s s' .completed .processed b hchar hinv hithas (by decide)
      rw [hstep]
      refine ⟨?_, h3⟩
      intro id
      by_cases hid : id = b
      · subst hid
        rw [h1, statusOf_of_completed s id hinv hithas]
        rfl
      · rw [h2 id hid]
        exact allowedEdge_refl _
  | failOp b msg now =>
    cases hit : lookupBlob s.pending b with
    | none =>
      have hstep : step s (.failOp b msg now) = s := by
        simp [step, markFailed, moveJob, Store.part, hit]
      rw [hstep]
      exact ⟨fun id => allowedEdge_refl _, hinv⟩
    | some job =>
      have hithas : hasJob s .pending b = true := by
        simp [hasJob, Store.part, hit]
      have hstep : step s (.failOp b msg now) =
          { s with failed := putBlob s.failed b (applyUpdates job { status := some "failed", errorMessage := some (some msg), completedAt := some (some now) }),
                   pending := delBlob s.pending b } := by
        simp [step, markFailed, moveJob, Store.part, Store.setPart, hit]
      set j : Job := applyUpdates job { status := some "failed", errorMessage := some (some msg), completedAt := some (some now) } with hj
      set s' : Store := { s with failed := putBlob s.failed b j, pending := delBlob s.pending b } with hs'
      have hchar : ∀ f id, hasJob s' f id =
          if f = Folder.pending then (if id = b then false else hasJob s f id)
          else if f = Folder.failed then (if id = b then true else hasJob s f id)
          else hasJob s f id := by
        intro f id
        cases f
        · by_cases hid : id = b
          · subst hid
            simp [hasJob, Store.part, hs', isSome_del_self]
          · simp [hasJob, Store.part, hs', hid, isSome_del_ne s.pending b id hid]
        · simp [hasJob, Store.part, hs']
        · simp [hasJob, Store.part, hs']
        · by_cases hid : id = b
          · subst hid
            simp [hasJob, Store.part, hs', isSome_put_self]
          · simp [hasJob, Store.part, hs', hid, isSome_put_ne s.failed b id j hid]
      obtain ⟨h1, h2, h3⟩ :=
        edges_inv_of_move s s' .pending .failed b hchar hinv hithas (by decide)
      rw [hstep]
      refine ⟨?_, h3⟩
      intro id
      by_cases hid : id = b
      · subst hid
        rw [h1, statusOf_of_pending s id hithas]
        rfl
      · rw [h2 id hid]
        exact allowedEdge_refl _
  | fail2 b msg now =>
    rw [show step s (.fail2 b msg now) = step s (.failOp b msg now) from by
      simp [step, markBatchFailed_eq_markFailed]]
    cases hit : lookupBlob s.pending b with
    | none =>
      have hstep : step s (.failOp b msg now) = s := by
        simp [step, markFailed, moveJob, Store.part, hit]
      rw [hstep]
      exact ⟨fun id => allowedEdge_refl _, hinv⟩
    | some job =>
      have hithas : hasJob s .pending b = true := by
        simp [hasJob, Store.part, hit]
      have hstep : step s (.failOp b msg now) =
          { s with failed := putBlob s.failed b (applyUpdates job { status := some "failed", errorMessage := some (some msg), completedAt := some (some now) }),
                   pending := delBlob s.pending b } := by
        simp [step, markFailed, moveJob, Store.part, Store.setPart, hit]
      set j : Job := applyUpdates job { status := some "failed", errorMessage := some (some msg), completedAt := some (some now) } with hj
      set s' : Store := { s with failed := putBlob s.failed b j, pending := delBlob s.pending b } with hs'
      have hchar : ∀ f id, hasJob s' f id =
          if f = Folder.pending then (if id = b then false else hasJob s f id)
          else if f = Folder.failed then (if id = b then true else hasJob s f id)
          else hasJob s f id := by
        intro f id
        cases f
        · by_cases hid : id = b
          · subst hid
            simp [hasJob, Store.part, hs', isSome_del_self]
          · simp [hasJob, Store.part, hs', hid, isSome_del_ne s.pending b id hid]
        · simp [hasJob, Store.part, hs']
        · simp [hasJob, Store.part, hs']
        · by_cases hid : id = b
          · subst hid
            simp [hasJob, Store.part, hs', isSome_put_self]
          · simp [hasJob, Store.part, hs', hid, isSome_put_ne s.failed b id j hid]
      obtain ⟨h1, h2, h3⟩ :=
        edges_inv_of_move s s' .pending .failed b hchar hinv hithas (by decide)
      rw [hstep]
      refine ⟨?_, h3⟩
      intro id
      by_cases hid : id = b
      · subst hid
        rw [h1, statusOf_of_pending s id hithas]
        rfl
      · rw [h2 id hid]
        exact allowedEdge_refl _
  | retryOp b =>
    cases hit : lookupBlob s.pending b with
    | none =>
      have hstep : step s (.retryOp b) = s := by
        simp [step, incrementRetry, hit]
      rw [hstep]
      exact ⟨fun id => allowedEdge_refl _, hinv⟩
    | some job =>
      have hithas : hasJob s .pending b = true := by
        simp [hasJob, Store.part, hit]
      have hstep : step s (.retryOp b) =
          { s with pending :=
              putBlob s.pending b { job with retryCount := some (job.retryCount.getD 0 + 1) } } := by
        simp [step, incrementRetry, hit]
      rw [hstep]
      obtain ⟨h1, h2⟩ :=
        edges_inv_of_overwrite s b { job with retryCount := some (job.retryCount.getD 0 + 1) } hithas
      refine ⟨?_, h2 hinv⟩
      intro id
      rw [h1 id]
      exact allowedEdge_refl _
  | retry2 b =>
    rw [show step s (.retry2 b) = step s (.retryOp b) from by
      simp [step, incrementRetryCount_eq_incrementRetry]]
    cases hit : lookupBlob s.pending b with
    | none =>
      have hstep : step s (.retryOp b) = s := by
        simp [step, incrementRetry, hit]
      rw [hstep]
      exact ⟨fun id => allowedEdge_refl _, hinv⟩
    | some job =>
      have hithas : hasJob s .pending b = true := by
        simp [hasJob, Store.part, hit]
      have hstep : step s (.retryOp b) =
          { s with pending :=
              putBlob s.pending b { job with retryCount := some (job.retryCount.getD 0 + 1) } } := by
        simp [step, incrementRetry, hit]
      rw [hstep]
      obtain ⟨h1, h2⟩ :=
        edges_inv_of_overwrite s b { job with retryCount := some (job.retryCount.getD 0 + 1) } hithas
      refine ⟨?_, h2 hinv⟩
      intro id
      rw [h1 id]
      exact allowedEdge_refl _

theorem storeInv_empty : StoreInv emptyStore := by
  intro id f g hf
  cases f <;> simp [hasJob, Store.part, emptyStore, lookupBlob] at hf

/-- Along any trace of helper invocations with fresh creations, every id's
observable state moves only along allowed edges. -/
theorem run_edges (ops : List Op) (s : Store) (hinv : StoreInv s)
    (hgood : goodTrace s ops = true) (id : String) :
    List.Chain' (fun a b => allowedEdge a b = true) (statusTrace s ops id) := by
  induction ops generalizing s with
  | nil => simp [statusTrace]
  | cons op ops ih =>
    simp only [goodTrace, Bool.and_eq_true] at hgood
    obtain ⟨hok, hrest⟩ := hgood
    obtain ⟨hedge, hinv'⟩ := step_edges_inv s op hinv hok
    have hchain := ih (step s op) hinv' hrest
    cases ops with
    | nil =>
      simp [statusTrace, List.chain'_cons, hedge id]
    | cons op2 ops2 =>
      simp only [statusTrace] at hchain ⊢
      exact List.chain'_cons.mpr ⟨hedge id, hchain⟩

/-- C1 counterexample: `createBatchJob` performs no duplicate check, so
invoking it for an id whose record sits in `failed` makes the observable
state re-enter `pending` — an edge out of `failed` that the claim rules
out. -/
theorem c1_ce_reentry_into_pending :
    statusOf
      (run emptyStore
        [.create ⟨"b1", "f1", "a.json", 1, none, none⟩ 0, .failOp "b1" "boom" 1])
      "b1" = some .failed ∧
    statusOf
      (run emptyStore
        [.create ⟨"b1", "f1", "a.json", 1, none, none⟩ 0, .failOp "b1" "boom" 1,
         .create ⟨"b1", "f1", "a.json", 1, none, none⟩ 2])
      "b1" = some .pending ∧
    allowedEdge (some .failed) (some .pending) = false := by
  decide

/-- C1 (amended): provided every `createBatchJob` call is fresh (its id is
in no folder at the time — the §3 single-creation discipline the source
relies on), any sequence of the storage helpers moves every job's
observable status only along the edges `pending → completed → processed`
and `pending → failed` (with stuttering and initial creation); in
particular no direct `pending → processed` step, no edge out of
`processed` or `failed`, and no re-entry into `pending` occurs.  Without
the freshness proviso the claim is false (`c1_ce_reentry_into_pending`). -/
theorem c1_statusFollowsLifecycleEdges (ops : List Op) (id : String)
    (hgood : goodTrace emptyStore ops = true) :
    List.Chain' (fun a b => allowedEdge a b = true) (statusTrace emptyStore ops id) :=
  run_edges ops emptyStore storeInv_empty hgood id

/-- Witness for `c1_statusFollowsLifecycleEdges` on a concrete
create/complete/process trace. -/
theorem c1_statusFollowsLifecycleEdges_witness :
    List.Chain' (fun a b => allowedEdge a b = true)
      (statusTrace emptyStore
        [.create ⟨"b1", "f1", "a.json", 1, none, none⟩ 0,
         .complete "b1" "out1" none 1, .processOp "b1" "output/a.jsonl" 2,
         .retryOp "b1"]
        "b1") :=
  c1_statusFollowsLifecycleEdges
    [.create ⟨"b1", "f1", "a.json", 1, none, none⟩ 0,
     .complete "b1" "out1" none 1, .processOp "b1" "output/a.jsonl" 2,
     .retryOp "b1"]
    "b1" (by decide)

/-! ## Claims C6–C8, C10: the JobStore contract -/

/-- C6 counterexample: a record for `"b1"` sits in the `failed` folder,
yet `createBatchJob` does not fail: it persists a fresh `pending` record
for the same id (the id is then visible in both folders). -/
theorem c6_ce_create_ignores_existing :
    hasJob { failed := [("b1", { batchId := "b1", status := "failed" })] } .failed "b1" = true ∧
    statusOf
      (createBatchJob { failed := [("b1", { batchId := "b1", status := "failed" })] }
        ⟨"b1", "f1", "a.json", 1, none, none⟩ 5).1
      "b1" = some .pending ∧
    hasJob
      (createBatchJob { failed := [("b1", { batchId := "b1", status := "failed" })] }
        ⟨"b1", "f1", "a.json", 1, none, none⟩ 5).1
      .failed "b1" = true := by
  decide

/-- C6 (amended): both `createBatchJob` variants persist the new record
under `pending` unconditionally — with `status = "pending"` and
`retryCount = 0` — overwriting any pending record of the same id, leaving
the other three folders untouched, and never failing with `AlreadyExists`
however the id is already present elsewhere in the store. -/
theorem c6_createBatchJob_unconditional (s : Store) (d : JobData) (now : Nat) :
    ((createBatchJob s d now).2.status = "pending" ∧
     (createBatchJob s d now).2.retryCount = some 0 ∧
     lookupBlob (createBatchJob s d now).1.pending d.batchId = some (createBatchJob s d now).2 ∧
     (createBatchJob s d now).1.completed = s.completed ∧
     (createBatchJob s d now).1.processed = s.processed ∧
     (createBatchJob s d now).1.failed = s.failed) ∧
    ((Storage2.createBatchJob s d now).2.status = "pending" ∧
     (Storage2.createBatchJob s d now).2.retryCount = some 0 ∧
     lookupBlob (Storage2.createBatchJob s d now).1.pending d.batchId =
       some (Storage2.createBatchJob s d now).2 ∧
     (Storage2.createBatchJob s d now).1.completed = s.completed ∧
     (Storage2.createBatchJob s d now).1.processed = s.processed ∧
     (Storage2.createBatchJob s d now).1.failed = s.failed) := by
  refine ⟨⟨rfl, rfl, ?_, rfl, rfl, rfl⟩, ⟨rfl, rfl, ?_, rfl, rfl, rfl⟩⟩
  · exact lookupBlob_putBlob_self s.pending d.batchId _
  · exact lookupBlob_putBlob_self s.pending d.batchId _

/-- C7 counterexample: for a job stored only under `processed`, `getJob`
finds it but `getBatchJob` (which never checks the `processed` folder)
returns `null`. -/
theorem c7_ce_getBatchJob_misses_processed :
    getJob { processed := [("b1", { batchId := "b1", status := "processed" })] } "b1" =
      some { batchId := "b1", status := "processed" } ∧
    Storage2.getBatchJob { processed := [("b1", { batchId := "b1", status := "processed" })] }
      "b1" = none := by
  decide

theorem isSome_false_eq_none {α : Type} {o : Option α} (h : o.isSome = false) : o = none := by
  cases o
  · rfl
  · simp at h

/-- C7 (amended): `getJob` searches all four folders — it returns a stored
record when one exists and `null` exactly when no folder holds the id —
whereas `getBatchJob` searches only `pending`, `completed` and `failed`,
returning `null` exactly when those three folders lack the id, so a job
held only in `processed` is reported as `null` by it. -/
theorem c7_get_search_characterization (s : Store) (id : String) :
    (getJob s id = none ↔ ∀ f, hasJob s f id = false) ∧
    (∀ j, getJob s id = some j → ∃ f, lookupBlob (s.part f) id = some j) ∧
    (Storage2.getBatchJob s id = none ↔
      hasJob s .pending id = false ∧ hasJob s .completed id = false ∧
        hasJob s .failed id = false) := by
  unfold getJob Storage2.getBatchJob
  refine ⟨?_, ?_, ?_⟩
  · constructor
    · intro h f
      cases hp : lookupBlob s.pending id <;> rw [hp] at h
      · cases hc : lookupBlob s.completed id <;> rw [hc] at h
        · cases hpr : lookupBlob s.processed id <;> rw [hpr] at h
          · have hf : lookupBlob s.failed id = none := h
            cases f <;> simp [hasJob, Store.part, hp, hc, hpr, hf]
          · exact absurd h (by simp)
        · exact absurd h (by simp)
      · exact absurd h (by simp)
    · intro hall
      have hp := isSome_false_eq_none (hall .pending)
      have hc := isSome_false_eq_none (hall .completed)
      have hpr := isSome_false_eq_none (hall .processed)
      have hf := isSome_false_eq_none (hall .failed)
      simp only [hasJob, Store.part] at hp hc hpr hf
      rw [hp, hc, hpr, hf]
  · intro j h
    cases hp : lookupBlob s.pending id <;> rw [hp] at h
    · cases hc : lookupBlob s.completed id <;> rw [hc] at h
      · cases hpr : lookupBlob s.processed id <;> rw [hpr] at h
        · exact ⟨.failed, h⟩
        · exact ⟨.processed, by simp [Store.part, hpr, ← h]⟩
      · exact ⟨.completed, by simp [Store.part, hc, ← h]⟩
    · exact ⟨.pending, by simp [Store.part, hp, ← h]⟩
  · constructor
    · intro h
      cases hp : lookupBlob s.pending id <;> rw [hp] at h
      · cases hc : lookupBlob s.completed id <;> rw [hc] at h
        · have hf : lookupBlob s.failed id = none := h
          exact ⟨by simp [hasJob, Store.part, hp], by simp [hasJob, Store.part, hc],
            by simp [hasJob, Store.part, hf]⟩
        · exact absurd h (by simp)
      · exact absurd h (by simp)
    · intro ⟨hp, hc, hf⟩
      have hp := isSome_false_eq_none hp
      have hc := isSome_false_eq_none hc
      have hf := isSome_false_eq_none hf
      simp only [hasJob, Store.part] at hp hc hf
      rw [hp, hc, hf]

theorem part_setPart_self (s : Store) (f : Folder) (p : List (String × Job)) :
    (s.setPart f p).part f = p := by
  cases f <;> rfl

theorem part_setPart_ne (s : Store) (f g : Folder) (p : List (String × Job)) (h : g ≠ f) :
    (s.setPart f p).part g = s.part g := by
  cases f <;> cases g <;> first | rfl | exact absurd rfl h

/-- C8: `moveJob` fails (raising `BlobNotFound`, before anything is
written) exactly when the source folder lacks the id; on a hit it returns
the merged record, now stored under the target folder, with the source
copy removed, all other folders untouched, and no other id disturbed. -/
theorem c8_moveJob_spec (s : Store) (id : String) (fromF toF : Folder)
    (u : Updates) (hsd : fromF ≠ toF) :
    (lookupBlob (s.part fromF) id = none → moveJob s id fromF toF u = none) ∧
    (∀ job, lookupBlob (s.part fromF) id = some job →
      ∃ s', moveJob s id fromF toF u = some (s', applyUpdates job u) ∧
        lookupBlob (s'.part toF) id = some (applyUpdates job u) ∧
        lookupBlob (s'.part fromF) id = none ∧
        (∀ g, g ≠ fromF → g ≠ toF → s'.part g = s.part g) ∧
        (∀ id', id' ≠ id →
          lookupBlob (s'.part fromF) id' = lookupBlob (s.part fromF) id' ∧
          lookupBlob (s'.part toF) id' = lookupBlob (s.part toF) id')) := by
  constructor
  · intro h
    unfold moveJob
    rw [h]
  · intro job h
    unfold moveJob
    rw [h]
    refine ⟨_, rfl, ?_, ?_, ?_, ?_⟩
    · rw [part_setPart_ne _ _ _ _ (Ne.symm hsd), part_setPart_self]
      exact lookupBlob_putBlob_self _ id _
    · rw [part_setPart_self]
      exact lookupBlob_delBlob_self _ id
    · intro g hg1 hg2
      rw [part_setPart_ne _ _ _ _ hg1, part_setPart_ne _ _ _ _ hg2]
    · intro id' hid
      constructor
      · rw [part_setPart_self, part_setPart_ne _ _ _ _ hsd]
        exact lookupBlob_delBlob_ne _ id id' hid
      · rw [part_setPart_ne _ _ _ _ (Ne.symm hsd), part_setPart_self]
        exact lookupBlob_putBlob_ne _ id id' _ hid

/-- Witness for `c8_moveJob_spec`: the `pending → completed` move of a
concrete one-job store. -/
theorem c8_moveJob_spec_witness :
    ∃ s', moveJob { pending := [("b1", { batchId := "b1" })] } "b1" .pending .completed
        { status := some "completed" } =
        some (s', applyUpdates { batchId := "b1" } { status := some "completed" }) ∧
      lookupBlob (s'.part .completed) "b1" =
        some (applyUpdates { batchId := "b1" } { status := some "completed" }) ∧
      lookupBlob (s'.part .pending) "b1" = none := by
  have h :=
    (c8_moveJob_spec { pending := [("b1", { batchId := "b1" })] } "b1" .pending .completed
      { status := some "completed" } (by decide)).2
      { batchId := "b1" } (by decide)
  obtain ⟨s', h1, h2, h3, _, _⟩ := h
  exact ⟨s', h1, h2, h3⟩

/-- C10: for a job stored under `pending`, both retry-increment helpers
persist and return the record with `retryCount` bumped by one (a missing
or `null` count reads as zero), every other field unchanged, the record
still under `pending`, and no other blob in any folder disturbed. -/
theorem c10_incrementRetry_frame (s : Store) (id : String) (j : Job)
    (h : lookupBlob s.pending id = some j) :
    ∃ s', incrementRetry s id =
        some (s', { j with retryCount := some (j.retryCount.getD 0 + 1) }) ∧
      Storage2.incrementRetryCount s id =
        some (s', { j with retryCount := some (j.retryCount.getD 0 + 1) }) ∧
      lookupBlob s'.pending id = some { j with retryCount := some (j.retryCount.getD 0 + 1) } ∧
      (∀ id', id' ≠ id → lookupBlob s'.pending id' = lookupBlob s.pending id') ∧
      s'.completed = s.completed ∧ s'.processed = s.processed ∧ s'.failed = s.failed := by
  have hs' : ∃ s' : Store,
      s' = { s with
        pending := putBlob s.pending id { j with retryCount := some (j.retryCount.getD 0 + 1) } } :=
    ⟨_, rfl⟩
  obtain ⟨s', hdef⟩ := hs'
  refine ⟨s', ?_, ?_, ?_, ?_, ?_, ?_, ?_⟩
  rotate_left 4
  · rw [hdef]
  · rw [hdef]
  · rw [hdef]
  · unfold incrementRetry
    rw [h, hdef]
  · rw [incrementRetryCount_eq_incrementRetry]
    unfold incrementRetry
    rw [h, hdef]
  · rw [hdef]
    exact lookupBlob_putBlob_self s.pending id _
  · intro id' hid
    rw [hdef]
    exact lookupBlob_putBlob_ne s.pending id id' _ hid

/-- Witness for `c10_incrementRetry_frame`: a pending job whose
`retryCount` is `null` is bumped to `1`. -/
theorem c10_incrementRetry_frame_witness :
    ∃ s', incrementRetry
        { pending := [("b1", { batchId := "b1", retryCount := none })] } "b1" =
        some (s', { batchId := "b1", retryCount := some 1 }) ∧
      Storage2.incrementRetryCount
        { pending := [("b1", { batchId := "b1", retryCount := none })] } "b1" =
        some (s', { batchId := "b1", retryCount := some 1 }) ∧
      lookupBlob s'.pending "b1" = some { batchId := "b1", retryCount := some 1 } := by
  have h :=
    c10_incrementRetry_frame
      { pending := [("b1", { batchId := "b1", retryCount := none })] } "b1"
      { batchId := "b1", retryCount := none } (by decide)
  obtain ⟨s', h1, h2, h3, _⟩ := h
  exact ⟨s', h1, h2, h3⟩

/-! ## The status pollers and result reconcilers

Remote interaction is a per-job oracle: the outcome of
`openAIClient.batches.retrieve` (a status payload, or a raised error with a
message) and of `openAIClient.files.content(...).text()` (the artifact
text, or a raised error).  The `output` container is an association list
from blob name to blob text. -/

/-- Max retries before marking a job as failed (both checker files). -/
def MAX_RETRIES : Nat := 3

/-- The `new Date().toISOString()` rendering of the abstract clock. -/
def isoString (now : Nat) : String := toString now

/-- `timestamp.replace(/[:.]/g, "-")` applied to the ISO rendering. -/
def timestampSafe (now : Nat) : String :=
  String.mk ((isoString now).toList.map (fun c => if c = ':' || c = '.' then '-' else c))

/-- The fields of the remote batch status payload the checkers read:
`status`, `output_file_id`, `error_file_id` and
`errors?.data?.[0]?.message`. -/
structure BatchStatus where
  status : String
  output_file_id : Option String := none
  error_file_id : Option String := none
  errMsg : Option String := none
deriving DecidableEq, Repr

/-- The `output` container. -/
def OutStore := List (String × String)

/-- JavaScript `x || d` on an optional string (empty string is falsy). -/
def jsOr (x : Option String) (d : String) : String :=
  match x with
  | some s => if s = "" then d else s
  | none => d

/-- `a?.[i]` indexing. -/
def jvIndex : JVal → Nat → Option JVal
  | .arr xs, i => xs.get? i
  | _, _ => none

/-- `result.response?.body?.choices?.[0]?.message?.content`. -/
def contentChain (e : JVal) : Option JVal :=
  (e.getField "response").bind fun r =>
    (r.getField "body").bind fun b =>
      (b.getField "choices").bind fun c =>
        (jvIndex c 0).bind fun c0 =>
          (c0.getField "message").bind fun m => m.getField "content"

/-- `result.response?.body?.usage`. -/
def usageChain (e : JVal) : Option JVal :=
  (e.getField "response").bind fun r => (r.getField "body").bind fun b => b.getField "usage"

/-- A key/value pair list carrying the key only when the value is defined
(`JSON.stringify` omits keys whose value is `undefined`). -/
def objField (k : String) (v : Option JVal) : List (String × JVal) :=
  match v with
  | some v => [(k, v)]
  | none => []

/-- Last path segment (`path.split("/").pop()`; for a string the array is
never empty). -/
def lastSeg (p : String) : String := (jsSplit p '/').getLastD ""

/-- `s.replace(/\.[^/.]+$/, "")`: drop a final dot-extension that is
non-empty and free of `/` and `.`. -/
def stripExt (s : String) : String :=
  let parts := jsSplit s '.'
  if parts.length ≤ 1 then s
  else
    let last := parts.getLastD ""
    if last = "" || last.toList.any (fun c => c = '/') then s
    else joinSep "." parts.dropLast

/-! ### `batchStatusChecker.js` (poller A, Salesforce write-back flavor) -/

/-- JSONL parse of poller A: `outputContent.trim().split("\n")
.filter(Boolean).map(JSON.parse-or-null).filter(Boolean)` — the final
truthiness filter drops both unparseable lines and falsy parsed values. -/
def parseResultsA (content : String) : List JVal :=
  (((jsSplit (jsTrim content) '\n').filter (fun l => l ≠ "")).filterMap jsonParse).filter jvTruthy

/-- `job.objectName || null`. -/
def objectNameOrNull (o : Option String) : JVal :=
  match o with
  | some s => if s = "" then .null else .str s
  | none => .null

/-- `truncate(str, maxLength)` of `batchStatusChecker.js`. -/
def truncate (s : String) (maxLength : Nat) : JVal :=
  if s = "" then .null
  else if s.length > maxLength then .str (s.take (maxLength - 3) ++ "...")
  else .str s

/-- `transformToSalesforceFormat(result, job, context)`: `null` (dropped by
the caller's `.filter(Boolean)`) for remote-error entries, for entries
without truthy content, for entries whose content fails to parse as JSON,
and for falsy parsed insights. -/
def transformToSalesforceFormat (result : JVal) (job : Job) : Option JVal :=
  let success : Option JVal :=
    let insights : Option JVal :=
      match contentChain result with
      | some c => if jvTruthy c then jsonParse (jsToString c) else none
      | none => none
    match insights with
    | none => none
    | some iv =>
      if jvTruthy iv then
        some (.obj (objField "ParentObjectId__c" (result.getField "custom_id") ++
          [("ParentObjectApiName__c", objectNameOrNull job.objectName),
           ("RawInsightsJSON__c", truncate (jsonStringify iv) 131072)]))
      else none
  match result.getField "error" with
  | some errv => if jvTruthy errv then none else success
  | none => success

/-- Poller A's output base name:
`job.inputBlobPath.split("/").pop()?.replace(/\.[^/.]+$/, "") || "unknown"`. -/
def baseNameA (p : String) : String :=
  let b := stripExt (lastSeg p)
  if b = "" then "unknown" else b

/-- Poller A's output blob name `${baseName}_processed_${timestamp}.jsonl`. -/
def fileNameA (job : Job) (now : Nat) : String :=
  baseNameA (job.inputBlobPath.getD "") ++ "_processed_" ++ timestampSafe now ++ ".jsonl"

/-- Poller A's output blob text: one compact JSON object per line. -/
def contentA (results : List JVal) : String :=
  joinSep "\n" (results.map jsonStringify)

/-- `saveResults(job, results, context)`: write the JSONL blob, return
`{outputPath, fileName}`. -/
def saveResults (outs : OutStore) (job : Job) (results : List JVal) (now : Nat) :
    OutStore × String × String :=
  let fileName := fileNameA job now
  (putBlob outs fileName (contentA results), "output/" ++ fileName, fileName)

/-- `processResults(openAIClient, job, batchStatus, context)` of poller A.
The third component is the message of an uncaught raised error (`none`
when the call returned normally); the store/output components carry
whatever was durably written before any raise. -/
def processResults (s : Store) (outs : OutStore) (job : Job) (bs : BatchStatus)
    (download : Except String String) (now : Nat) : Store × OutStore × Option String :=
  match bs.output_file_id with
  | none => (s, outs, some "No output file ID")
  | some ofid =>
    match download with
    | .error m => (s, outs, some m)
    | .ok outputContent =>
      let results := parseResultsA outputContent
      let processedResults := results.filterMap (fun r => transformToSalesforceFormat r job)
      let saved := saveResults outs job processedResults now
      match markCompleted s job.batchId ofid bs.error_file_id now with
      | none => (s, saved.1, some "BlobNotFound")
      | some (s1, _) =>
        match markProcessed s1 job.batchId saved.2.1 now with
        | none => (s1, saved.1, some "BlobNotFound")
        | some (s2, _) => (s2, saved.1, none)

/-- One iteration of poller A's per-job loop body, `try`/`catch` included:
on any raised error the catch increments the retry count and, at
`retryCount ≥ MAX_RETRIES`, marks the job failed with
`"Max retries: <cause>"`.  A raise inside the catch itself (job no longer
pending) escapes the loop; it is reported in the third component. -/
def batchStatusCheckerJob (s : Store) (outs : OutStore) (job : Job)
    (query : Except String BatchStatus) (download : Except String String) (now : Nat) :
    Store × OutStore × Option String :=
  let body : Store × OutStore × Option String :=
    match query with
    | .error m => (s, outs, some m)
    | .ok bs =>
      match bs.status with
      | "completed" => processResults s outs job bs download now
      | "failed" =>
        match markFailed s job.batchId (jsOr bs.errMsg "Failed") now with
        | some (s', _) => (s', outs, none)
        | none => (s, outs, some "BlobNotFound")
      | "expired" =>
        match markFailed s job.batchId "Batch expired" now with
        | some (s', _) => (s', outs, none)
        | none => (s, outs, some "BlobNotFound")
      | "cancelled" =>
        match markFailed s job.batchId "Batch cancelled" now with
        | some (s', _) => (s', outs, none)
        | none => (s, outs, some "BlobNotFound")
      | "validating" => (s, outs, none)
      | "in_progress" => (s, outs, none)
      | "finalizing" => (s, outs, none)
      | _ => (s, outs, none)
  match body with
  | (s', o', none) => (s', o', none)
  | (s', o', some m) =>
    match incrementRetry s' job.batchId with
    | none => (s', o', some "BlobNotFound")
    | some (s'', updated) =>
      if MAX_RETRIES ≤ updated.retryCount.getD 0 then
        match markFailed s'' job.batchId ("Max retries: " ++ m) now with
        | some (s3, _) => (s3, o', none)
        | none => (s'', o', some "BlobNotFound")
      else (s'', o', none)

/-! ### `batchApiStatusChecker` (poller B, generic output flavor) -/

/-- `parseJsonlResults(jsonlContent, log)` of poller B: skips blank lines,
drops unparseable lines with a counted warning, keeps every parsed value. -/
def parseJsonlResults (content : String) : List JVal :=
  ((jsSplit (jsTrim content) '\n').filter (fun l => jsTrim l ≠ "")).filterMap jsonParse

/-- `result.error.message || "Processing failed"`. -/
def errMsgVal (errv : JVal) : JVal :=
  match errv.getField "message" with
  | some m => if jvTruthy m then m else .str "Processing failed"
  | none => .str "Processing failed"

/-- Poller B's per-entry transform (the `results.map` body of
`processBatchResults`): remote-error entries become flagged failure
results, parse failures become flagged `parseError` results carrying the
raw text — no entry is dropped. -/
def transformB (now : Nat) (result : JVal) : JVal :=
  let success : JVal :=
    let insights : JVal :=
      match contentChain result with
      | some c =>
        if jvTruthy c then
          match jsonParse (jsToString c) with
          | some v => v
          | none => .obj [("rawResponse", c), ("parseError", .bool true)]
        else .obj [("parseError", .bool true)]
      | none => .obj [("parseError", .bool true)]
    .obj ([("success", .bool true)] ++
      objField "originalRecordId" (result.getField "custom_id") ++
      [("aiResponse", .obj ([("insights", insights)] ++ objField "usage" (usageChain result))),
       ("processedAt", .str (isoString now))])
  match result.getField "error" with
  | some errv =>
    if jvTruthy errv then
      .obj ([("success", .bool false)] ++
        objField "originalRecordId" (result.getField "custom_id") ++
        [("aiResponse", .obj [("error", errMsgVal errv)]),
         ("processedAt", .str (isoString now))])
    else success
  | none => success

/-- Poller B's output base name:
`(job.inputBlobPath.split("/").pop() || "unknown").replace(/\.[^/.]+$/, "")`. -/
def baseNameB (p : String) : String :=
  stripExt (jsOr (some (lastSeg p)) "unknown")

/-- Poller B's output blob name
`${baseName}_batch_processed_${timestamp}.json`. -/
def fileNameB (job : Job) (now : Nat) : String :=
  baseNameB (job.inputBlobPath.getD "") ++ "_batch_processed_" ++ timestampSafe now ++ ".json"

/-- Poller B's output blob text: `JSON.stringify(results, null, 2)`. -/
def contentB (results : List JVal) : String :=
  jsonStringify2 0 (.arr results)

/-- `saveResultsToBlob(job, results, log)`: write the pretty-printed JSON
array, return `"output/" + name`. -/
def saveResultsToBlob (outs : OutStore) (job : Job) (results : List JVal) (now : Nat) :
    OutStore × String :=
  let name := fileNameB job now
  (putBlob outs name (contentB results), "output/" ++ name)

/-- The `catch` block of `processBatchResults`: mark the job failed with
the raised message, then rethrow.  A raise inside the catch (job not in
`pending`) replaces the propagated error. -/
def processBatchResultsCatch (s : Store) (outs : OutStore) (job : Job) (m : String)
    (now : Nat) : Store × OutStore × Option String :=
  match Storage2.markBatchFailed s job.batchId m now with
  | some (s', _) => (s', outs, some m)
  | none => (s, outs, some "BlobNotFound")

/-- `processBatchResults(openAIClient, job, batchStatus, log)` of poller
B.  Unlike poller A, any failure inside it — missing output-file id,
failed download, failed status move — lands in its own `catch`, which
force-moves the job `pending → failed` and rethrows. -/
def processBatchResults (s : Store) (outs : OutStore) (job : Job) (bs : BatchStatus)
    (download : Except String String) (now : Nat) : Store × OutStore × Option String :=
  match bs.output_file_id with
  | none => processBatchResultsCatch s outs job "No output file ID in completed batch" now
  | some ofid =>
    match download with
    | .error m => processBatchResultsCatch s outs job m now
    | .ok outputContent =>
      let results := parseJsonlResults outputContent
      let processedResults := results.map (transformB now)
      let saved := saveResultsToBlob outs job processedResults now
      match Storage2.markBatchCompleted s job.batchId ofid bs.error_file_id now with
      | none => processBatchResultsCatch s saved.1 job "BlobNotFound" now
      | some (s1, _) =>
        match Storage2.markBatchProcessed s1 job.batchId saved.2 now with
        | none => processBatchResultsCatch s1 saved.1 job "BlobNotFound" now
        | some (s2, _) => (s2, saved.1, none)

/-- One iteration of poller B's per-job loop body, `try`/`catch` included.
The catch increments the retry count and, at `retryCount ≥ MAX_RETRIES`,
marks the job failed with `"Failed after 3 retries: <cause>"`. -/
def batchApiStatusCheckerJob (s : Store) (outs : OutStore) (job : Job)
    (query : Except String BatchStatus) (download : Except String String) (now : Nat) :
    Store × OutStore × Option String :=
  let body : Store × OutStore × Option String :=
    match query with
    | .error m => (s, outs, some m)
    | .ok bs =>
      match bs.status with
      | "completed" => processBatchResults s outs job bs download now
      | "failed" =>
        match Storage2.markBatchFailed s job.batchId
            (jsOr bs.errMsg "Batch processing failed") now with
        | some (s', _) => (s', outs, none)
        | none => (s, outs, some "BlobNotFound")
      | "expired" =>
        match Storage2.markBatchFailed s job.batchId
            "Batch expired - exceeded 24 hour completion window" now with
        | some (s', _) => (s', outs, none)
        | none => (s, outs, some "BlobNotFound")
      | "cancelled" =>
        match Storage2.markBatchFailed s job.batchId "Batch was cancelled" now with
        | some (s', _) => (s', outs, none)
        | none => (s, outs, some "BlobNotFound")
      | "validating" => (s, outs, none)
      | "in_progress" => (s, outs, none)
      | "finalizing" => (s, outs, none)
      | _ => (s, outs, none)
  match body with
  | (s', o', none) => (s', o', none)
  | (s', o', some m) =>
    match Storage2.incrementRetryCount s' job.batchId with
    | none => (s', o', some "BlobNotFound")
    | some (s'', updated) =>
      if MAX_RETRIES ≤ updated.retryCount.getD 0 then
        match Storage2.markBatchFailed s'' job.batchId
            ("Failed after " ++ toString MAX_RETRIES ++ " retries: " ++ m) now with
        | some (s3, _) => (s3, o', none)
        | none => (s'', o', some "BlobNotFound")
      else (s'', o', none)

/-! ## Claim C2: bounded retry escalation on status-query errors -/

/-- The pending record after the catch's retry bump. -/
def retryBumped (j : Job) (n : Nat) : Job := { j with retryCount := some n }

/-- The failed record written when the bound is reached. -/
def retryFailedRecord (j : Job) (n : Nat) (m : String) (now : Nat) : Job :=
  { j with status := "failed", completedAt := some now, errorMessage := some m, retryCount := some n }

theorem incrementRetry_hit (s : Store) (j : Job) (k : Nat)
    (h : lookupBlob s.pending j.batchId = some j) (hk : j.retryCount = some k) :
    incrementRetry s j.batchId =
      some ({ s with pending := putBlob s.pending j.batchId (retryBumped j (k + 1)) },
        retryBumped j (k + 1)) := by
  unfold incrementRetry
  rw [h]
  simp [hk, retryBumped]

theorem markFailed_after_bump (s : Store) (j : Job) (k : Nat) (m : String) (now : Nat) :
    markFailed { s with pending := putBlob s.pending j.batchId (retryBumped j (k + 1)) }
      j.batchId m now =
      some ({ s with pending := delBlob (putBlob s.pending j.batchId (retryBumped j (k + 1))) j.batchId, failed := putBlob s.failed j.batchId (retryFailedRecord j (k + 1) m now) },
        retryFailedRecord j (k + 1) m now) := by
  unfold markFailed moveJob
  simp only [Store.part]
  rw [lookupBlob_putBlob_self]
  rfl

theorem checkerA_queryErr_small (s : Store) (outs : OutStore) (j : Job) (k : Nat)
    (d : Except String String) (m : String) (now : Nat)
    (h : lookupBlob s.pending j.batchId = some j) (hk : j.retryCount = some k)
    (hlt : k + 1 < MAX_RETRIES) :
    batchStatusCheckerJob s outs j (.error m) d now =
      ({ s with pending := putBlob s.pending j.batchId (retryBumped j (k + 1)) }, outs, none) := by
  simp only [batchStatusCheckerJob]
  rw [incrementRetry_hit s j k h hk]
  simp only [retryBumped, Option.getD_some]
  rw [if_neg (by omega)]

theorem checkerA_queryErr_fail (s : Store) (outs : OutStore) (j : Job) (k : Nat)
    (d : Except String String) (m : String) (now : Nat)
    (h : lookupBlob s.pending j.batchId = some j) (hk : j.retryCount = some k)
    (hge : MAX_RETRIES ≤ k + 1) :
    batchStatusCheckerJob s outs j (.error m) d now =
      ({ s with pending := delBlob (putBlob s.pending j.batchId (retryBumped j (k + 1))) j.batchId, failed := putBlob s.failed j.batchId (retryFailedRecord j (k + 1) ("Max retries: " ++ m) now) },
        outs, none) := by
  simp only [batchStatusCheckerJob]
  rw [incrementRetry_hit s j k h hk]
  simp only [retryBumped, Option.getD_some]
  rw [if_pos (by omega)]
  rw [show ({ j with retryCount := some (k + 1) } : Job) = retryBumped j (k + 1) from rfl,
    markFailed_after_bump s j k ("Max retries: " ++ m) now]

theorem checkerB_queryErr_small (s : Store) (outs : OutStore) (j : Job) (k : Nat)
    (d : Except String String) (m : String) (now : Nat)
    (h : lookupBlob s.pending j.batchId = some j) (hk : j.retryCount = some k)
    (hlt : k + 1 < MAX_RETRIES) :
    batchApiStatusCheckerJob s outs j (.error m) d now =
      ({ s with pending := putBlob s.pending j.batchId (retryBumped j (k + 1)) }, outs, none) := by
  simp only [batchApiStatusCheckerJob]
  rw [incrementRetryCount_eq_incrementRetry, incrementRetry_hit s j k h hk]
  simp only [retryBumped, Option.getD_some]
  rw [if_neg (by omega)]

theorem checkerB_queryErr_fail (s : Store) (outs : OutStore) (j : Job) (k : Nat)
    (d : Except String String) (m : String) (now : Nat)
    (h : lookupBlob s.pending j.batchId = some j) (hk : j.retryCount = some k)
    (hge : MAX_RETRIES ≤ k + 1) :
    batchApiStatusCheckerJob s outs j (.error m) d now =
      ({ s with pending := delBlob (putBlob s.pending j.batchId (retryBumped j (k + 1))) j.batchId, failed := putBlob s.failed j.batchId (retryFailedRecord j (k + 1) ("Failed after " ++ toString MAX_RETRIES ++ " retries: " ++ m) now) },
        outs, none) := by
  simp only [batchApiStatusCheckerJob]
  rw [incrementRetryCount_eq_incrementRetry, incrementRetry_hit s j k h hk]
  simp only [retryBumped, Option.getD_some]
  rw [if_pos (by omega)]
  rw [markBatchFailed_eq_markFailed,
    show ({ j with retryCount := some (k + 1) } : Job) = retryBumped j (k + 1) from rfl,
    markFailed_after_bump s j k ("Failed after " ++ toString MAX_RETRIES ++ " retries: " ++ m) now]

/-- C2 counterexample: in `batchStatusChecker.js` three consecutive query
failures do fail the job, but the error message is
`"Max retries: <cause>"`, which does not name the retry bound (the digit 3
never appears in it), contrary to the claimed message shape. -/
theorem c2_ce_message_without_bound :
    (lookupBlob ((batchStatusCheckerJob { pending := [("b1", { batchId := "b1", retryCount := some 0 })] } [] { batchId := "b1", retryCount := some 0 } (.error "boom") (.error "") 1).1).pending "b1").map Job.retryCount = some (some 1) ∧
    (lookupBlob ((batchStatusCheckerJob (batchStatusCheckerJob { pending := [("b1", { batchId := "b1", retryCount := some 0 })] } [] { batchId := "b1", retryCount := some 0 } (.error "boom") (.error "") 1).1 [] { batchId := "b1", retryCount := some 0 } (.error "boom") (.error "") 2).1).pending "b1").map Job.retryCount = some (some 2) ∧
    lookupBlob ((batchStatusCheckerJob (batchStatusCheckerJob (batchStatusCheckerJob { pending := [("b1", { batchId := "b1", retryCount := some 0 })] } [] { batchId := "b1", retryCount := some 0 } (.error "boom") (.error "") 1).1 [] { batchId := "b1", retryCount := some 0 } (.error "boom") (.error "") 2).1 [] { batchId := "b1", retryCount := some 0 } (.error "boom") (.error "") 3).1).pending "b1" = none ∧
    (lookupBlob ((batchStatusCheckerJob (batchStatusCheckerJob (batchStatusCheckerJob { pending := [("b1", { batchId := "b1", retryCount := some 0 })] } [] { batchId := "b1", retryCount := some 0 } (.error "boom") (.error "") 1).1 [] { batchId := "b1", retryCount := some 0 } (.error "boom") (.error "") 2).1 [] { batchId := "b1", retryCount := some 0 } (.error "boom") (.error "") 3).1).failed "b1").map Job.errorMessage = some (some "Max retries: boom") ∧
    ("Max retries: boom".toList.contains '3') = false := by
  decide

/-- C2 (amended): in both pollers, a status-query error on a pending job
with `retryCount = k` bumps the persisted count to `k + 1`; the job moves
to `failed` exactly when `k + 1 ≥ MAX_RETRIES = 3`, and otherwise stays
pending with the bumped count (so after `n < 3` consecutive failures from
a fresh job the count equals `n`).  The failure message is
`"Failed after 3 retries: <cause>"` in `batchApiStatusChecker` (naming
bound and cause) but `"Max retries: <cause>"` in `batchStatusChecker`
(naming only the cause). -/
theorem c2_retryEscalationBound (s : Store) (outs : OutStore) (j : Job) (k : Nat)
    (d : Except String String) (m : String) (now : Nat)
    (h : lookupBlob s.pending j.batchId = some j) (hk : j.retryCount = some k) :
    (k + 1 < MAX_RETRIES →
      (∃ s', batchStatusCheckerJob s outs j (.error m) d now = (s', outs, none) ∧
        lookupBlob s'.pending j.batchId = some (retryBumped j (k + 1)) ∧
        s'.completed = s.completed ∧ s'.processed = s.processed ∧ s'.failed = s.failed) ∧
      (∃ s', batchApiStatusCheckerJob s outs j (.error m) d now = (s', outs, none) ∧
        lookupBlob s'.pending j.batchId = some (retryBumped j (k + 1)) ∧
        s'.completed = s.completed ∧ s'.processed = s.processed ∧ s'.failed = s.failed)) ∧
    (MAX_RETRIES ≤ k + 1 →
      (∃ s', batchStatusCheckerJob s outs j (.error m) d now = (s', outs, none) ∧
        lookupBlob s'.pending j.batchId = none ∧
        lookupBlob s'.failed j.batchId =
          some (retryFailedRecord j (k + 1) ("Max retries: " ++ m) now) ∧
        s'.completed = s.completed ∧ s'.processed = s.processed) ∧
      (∃ s', batchApiStatusCheckerJob s outs j (.error m) d now = (s', outs, none) ∧
        lookupBlob s'.pending j.batchId = none ∧
        lookupBlob s'.failed j.batchId =
          some (retryFailedRecord j (k + 1)
            ("Failed after " ++ toString MAX_RETRIES ++ " retries: " ++ m) now) ∧
        s'.completed = s.completed ∧ s'.processed = s.processed)) := by
  constructor
  · intro hlt
    constructor
    · refine ⟨_, checkerA_queryErr_small s outs j k d m now h hk hlt, ?_, rfl, rfl, rfl⟩
      exact lookupBlob_putBlob_self s.pending j.batchId _
    · refine ⟨_, checkerB_queryErr_small s outs j k d m now h hk hlt, ?_, rfl, rfl, rfl⟩
      exact lookupBlob_putBlob_self s.pending j.batchId _
  · intro hge
    constructor
    · refine ⟨_, checkerA_queryErr_fail s outs j k d m now h hk hge, ?_, ?_, rfl, rfl⟩
      · exact lookupBlob_delBlob_self _ j.batchId
      · exact lookupBlob_putBlob_self s.failed j.batchId _
    · refine ⟨_, checkerB_queryErr_fail s outs j k d m now h hk hge, ?_, ?_, rfl, rfl⟩
      · exact lookupBlob_delBlob_self _ j.batchId
      · exact lookupBlob_putBlob_self s.failed j.batchId _

/-- Witness for `c2_retryEscalationBound` at a concrete one-job store with
`retryCount = 2` (the third consecutive failure). -/
theorem c2_retryEscalationBound_witness :
    MAX_RETRIES ≤ 2 + 1 ∧
    ∃ s', batchStatusCheckerJob { pending := [("b1", { batchId := "b1", retryCount := some 2 })] } [] { batchId := "b1", retryCount := some 2 } (.error "boom") (.error "") 9 = (s', [], none) ∧
      lookupBlob s'.pending "b1" = none ∧
      lookupBlob s'.failed "b1" =
        some (retryFailedRecord { batchId := "b1", retryCount := some 2 } 3 ("Max retries: " ++ "boom") 9) ∧
      s'.completed = [] ∧ s'.processed = [] := by
  refine ⟨by decide, ?_⟩
  exact ((c2_retryEscalationBound
    { pending := [("b1", { batchId := "b1", retryCount := some 2 })] } []
    { batchId := "b1", retryCount := some 2 } 2 (.error "") "boom" 9
    (by decide) rfl).2 (by decide)).1

/-! ## Claim C3: what happens when reconciliation fails -/

theorem markFailed_hit (s : Store) (j : Job) (m : String) (now : Nat)
    (h : lookupBlob s.pending j.batchId = some j) :
    markFailed s j.batchId m now =
      some ({ s with pending := delBlob s.pending j.batchId, failed := putBlob s.failed j.batchId { j with status := "failed", completedAt := some now, errorMessage := some m } },
        { j with status := "failed", completedAt := some now, errorMessage := some m }) := by
  unfold markFailed moveJob
  simp only [Store.part]
  rw [h]
  rfl

/-- C3 counterexample: a pending job whose remote status is `completed`
but whose artifact download raises is NOT left in `pending` by poller B's
`processBatchResults`: its catch moves it straight to `failed` (and the
rethrown error then crashes the remainder of the tick, since the catch's
`incrementRetryCount` no longer finds a pending blob). -/
theorem c3_ce_download_failure_marks_failed :
    lookupBlob ((processBatchResults { pending := [("b1", { batchId := "b1", retryCount := some 0 })] } [] { batchId := "b1", retryCount := some 0 } ⟨"completed", some "of1", none, none⟩ (.error "net down") 7).1).pending "b1" = none ∧
    (lookupBlob ((processBatchResults { pending := [("b1", { batchId := "b1", retryCount := some 0 })] } [] { batchId := "b1", retryCount := some 0 } ⟨"completed", some "of1", none, none⟩ (.error "net down") 7).1).failed "b1").map Job.status = some "failed" ∧
    (processBatchResults { pending := [("b1", { batchId := "b1", retryCount := some 0 })] } [] { batchId := "b1", retryCount := some 0 } ⟨"completed", some "of1", none, none⟩ (.error "net down") 7).2.2 = some "net down" ∧
    (batchApiStatusCheckerJob { pending := [("b1", { batchId := "b1", retryCount := some 0 })] } [] { batchId := "b1", retryCount := some 0 } (.ok ⟨"completed", some "of1", none, none⟩) (.error "net down") 7).2.2 = some "BlobNotFound" := by
  refine ⟨?_, ?_, ?_, ?_⟩ <;> decide

/-- C3 (amended): the two reconcilers disagree with the claim in different
ways.  In poller B, a download failure (or missing output-file id) is
caught inside `processBatchResults`, which moves the job `pending →
failed` immediately — the job is not left pending.  In poller A,
`processResults` itself writes nothing and the error propagates to the
per-job catch, which bumps `retryCount`; the job stays pending only while
the bumped count is below `MAX_RETRIES`. -/
theorem c3_reconciliationFailure (s : Store) (outs : OutStore) (j : Job) (k : Nat)
    (ofid : String) (efid em : Option String) (m : String) (now : Nat)
    (h : lookupBlob s.pending j.batchId = some j) (hk : j.retryCount = some k) :
    (∃ s', processBatchResults s outs j ⟨"completed", some ofid, efid, em⟩ (.error m) now =
        (s', outs, some m) ∧
      lookupBlob s'.pending j.batchId = none ∧
      lookupBlob s'.failed j.batchId =
        some { j with status := "failed", completedAt := some now, errorMessage := some m }) ∧
    processResults s outs j ⟨"completed", some ofid, efid, em⟩ (.error m) now =
      (s, outs, some m) ∧
    (k + 1 < MAX_RETRIES →
      ∃ s', batchStatusCheckerJob s outs j (.ok ⟨"completed", some ofid, efid, em⟩)
          (.error m) now = (s', outs, none) ∧
        lookupBlob s'.pending j.batchId = some (retryBumped j (k + 1)) ∧
        s'.failed = s.failed) := by
  refine ⟨?_, ?_, ?_⟩
  · have hred : processBatchResults s outs j ⟨"completed", some ofid, efid, em⟩
        (.error m) now = processBatchResultsCatch s outs j m now := rfl
    rw [hred]
    unfold processBatchResultsCatch
    rw [markBatchFailed_eq_markFailed, markFailed_hit s j m now h]
    refine ⟨_, rfl, ?_, ?_⟩
    · exact lookupBlob_delBlob_self _ j.batchId
    · exact lookupBlob_putBlob_self s.failed j.batchId _
  · unfold processResults
    rfl
  · intro hlt
    have hbody : batchStatusCheckerJob s outs j (.ok ⟨"completed", some ofid, efid, em⟩)
        (.error m) now = batchStatusCheckerJob s outs j (.error m) (.error m) now := by
      simp only [batchStatusCheckerJob]
      rfl
    rw [hbody, checkerA_queryErr_small s outs j k (.error m) m now h hk hlt]
    refine ⟨_, rfl, ?_, rfl⟩
    exact lookupBlob_putBlob_self s.pending j.batchId _

/-- Witness for `c3_reconciliationFailure` at a concrete one-job store. -/
theorem c3_reconciliationFailure_witness :
    ∃ s', processBatchResults { pending := [("b1", { batchId := "b1", retryCount := some 0 })] } [] { batchId := "b1", retryCount := some 0 } ⟨"completed", some "of1", none, none⟩ (.error "net down") 7 = (s', [], some "net down") ∧
      lookupBlob s'.pending "b1" = none ∧
      lookupBlob s'.failed "b1" = some { batchId := "b1", retryCount := some 0, status := "failed", completedAt := some 7, errorMessage := some "net down" } := by
  exact (c3_reconciliationFailure
    { pending := [("b1", { batchId := "b1", retryCount := some 0 })] } []
    { batchId := "b1", retryCount := some 0 } 0 "of1" none none "net down" 7
    (by decide) rfl).1

/-! ## Claim C4: per-entry parse failures -/

/-- C4 counterexample: an artifact line whose model content is not valid
JSON parses fine as an entry, yet poller A's `transformToSalesforceFormat`
returns `null` for it and the caller's `.filter(Boolean)` drops it: the
persisted normalized result set is empty even though one entry was
parsed.  (Poller B keeps the same entry as a flagged result.) -/
theorem c4_ce_parse_failure_dropped :
    (parseResultsA "\x7b\"custom_id\":\"r1\",\"response\":\x7b\"body\":\x7b\"choices\":[\x7b\"message\":\x7b\"content\":\"not json\"\x7d\x7d]\x7d\x7d\x7d").length = 1 ∧
    ((parseResultsA "\x7b\"custom_id\":\"r1\",\"response\":\x7b\"body\":\x7b\"choices\":[\x7b\"message\":\x7b\"content\":\"not json\"\x7d\x7d]\x7d\x7d\x7d").filterMap
      (fun r => transformToSalesforceFormat r { batchId := "b1" })).length = 0 ∧
    ((parseJsonlResults "\x7b\"custom_id\":\"r1\",\"response\":\x7b\"body\":\x7b\"choices\":[\x7b\"message\":\x7b\"content\":\"not json\"\x7d\x7d]\x7d\x7d\x7d").map (transformB 5)).length = 1 := by
  refine ⟨?_, ?_, ?_⟩ <;> decide

/-- C4 (amended): the two reconcilers treat unparseable model content
differently.  Poller B's transform emits, for every entry whose content
fails to JSON-parse, a `success` result whose `aiResponse.insights` is
flagged `parseError: true` and carries the raw text, preserving the
entry's `custom_id` as `originalRecordId`, and its `map` never drops an
entry.  Poller A's `transformToSalesforceFormat` instead returns `null`
for such an entry, which the caller's `.filter(Boolean)` then drops from
the persisted set (`c4_ce_parse_failure_dropped`). -/
theorem c4_parseFailurePreserved (now : Nat) (e c : JVal) (job : Job)
    (herr : e.getField "error" = none ∨
      ∃ ev, e.getField "error" = some ev ∧ jvTruthy ev = false)
    (hc : contentChain e = some c) (hct : jvTruthy c = true)
    (hp : jsonParse (jsToString c) = none) :
    ((transformB now e).getField "success" = some (.bool true) ∧
     (transformB now e).getField "originalRecordId" = e.getField "custom_id" ∧
     ((transformB now e).getField "aiResponse").bind (fun a => a.getField "insights") =
       some (.obj [("rawResponse", c), ("parseError", .bool true)]) ∧
     ∀ entries : List JVal, (entries.map (transformB now)).length = entries.length) ∧
    transformToSalesforceFormat e job = none := by
  have hB : transformB now e =
      .obj ([("success", .bool true)] ++
        objField "originalRecordId" (e.getField "custom_id") ++
        [("aiResponse", .obj ([("insights",
            .obj [("rawResponse", c), ("parseError", .bool true)])] ++
          objField "usage" (usageChain e))),
         ("processedAt", .str (isoString now))]) := by
    rcases herr with h0 | ⟨ev, hev, hevf⟩
    · simp only [transformB, h0, hc, hct, hp, if_true]
    · simp only [transformB, hev, hevf, hc, hct, hp, if_true]
      rfl
  have hA : transformToSalesforceFormat e job = none := by
    rcases herr with h0 | ⟨ev, hev, hevf⟩
    · simp only [transformToSalesforceFormat, h0, hc, hct, hp, if_true]
    · simp only [transformToSalesforceFormat, hev, hevf, hc, hct, hp, if_true]
      rfl
  refine ⟨⟨?_, ?_, ?_, ?_⟩, hA⟩
  · rw [hB]
    cases e.getField "custom_id" <;> simp [JVal.getField, JVal.getField.go, objField]
  · rw [hB]
    cases hcid : e.getField "custom_id" <;> simp [JVal.getField, JVal.getField.go, objField]
  · rw [hB]
    cases e.getField "custom_id" <;> simp [JVal.getField, JVal.getField.go, objField]
  · intro entries
    exact List.length_map entries (transformB now)

/-- Witness for `c4_parseFailurePreserved` at a concrete parsed entry
whose content is `"not json"`. -/
theorem c4_parseFailurePreserved_witness :
    ((transformB 5 (.obj [("custom_id", .str "r1"), ("response", .obj [("body", .obj [("choices", .arr [.obj [("message", .obj [("content", .str "not json")])]])])])])).getField "success" = some (.bool true) ∧
     (transformB 5 (.obj [("custom_id", .str "r1"), ("response", .obj [("body", .obj [("choices", .arr [.obj [("message", .obj [("content", .str "not json")])]])])])])).getField "originalRecordId" = (JVal.obj [("custom_id", .str "r1"), ("response", .obj [("body", .obj [("choices", .arr [.obj [("message", .obj [("content", .str "not json")])]])])])]).getField "custom_id" ∧
     ((transformB 5 (.obj [("custom_id", .str "r1"), ("response", .obj [("body", .obj [("choices", .arr [.obj [("message", .obj [("content", .str "not json")])]])])])])).getField "aiResponse").bind (fun a => a.getField "insights") =
       some (.obj [("rawResponse", .str "not json"), ("parseError", .bool true)]) ∧
     ∀ entries : List JVal, (entries.map (transformB 5)).length = entries.length) ∧
    transformToSalesforceFormat (.obj [("custom_id", .str "r1"), ("response", .obj [("body", .obj [("choices", .arr [.obj [("message", .obj [("content", .str "not json")])]])])])]) { batchId := "b1" } = none :=
  c4_parseFailurePreserved 5
    (.obj [("custom_id", .str "r1"), ("response", .obj [("body", .obj [("choices", .arr [.obj [("message", .obj [("content", .str "not json")])]])])])])
    (.str "not json") { batchId := "b1" }
    (Or.inl rfl) rfl rfl rfl

/-! ## Claim C5: byte-equivalence of re-runs of the reconciler -/

theorem markCompleted_hit (s : Store) (j : Job) (ofid : String) (efid : Option String)
    (now : Nat) (h : lookupBlob s.pending j.batchId = some j) :
    markCompleted s j.batchId ofid efid now =
      some ({ s with pending := delBlob s.pending j.batchId, completed := putBlob s.completed j.batchId { j with status := "completed", completedAt := some now, outputFileId := some ofid, errorFileId := efid } },
        { j with status := "completed", completedAt := some now, outputFileId := some ofid, errorFileId := efid }) := by
  unfold markCompleted moveJob
  simp only [Store.part]
  rw [h]
  rfl

theorem markProcessed_hit (s : Store) (j : Job) (path : String) (now : Nat)
    (h : lookupBlob s.completed j.batchId = some j) :
    markProcessed s j.batchId path now =
      some ({ s with completed := delBlob s.completed j.batchId, processed := putBlob s.processed j.batchId { j with status := "processed", outputBlobPath := some path, processedAt := some now } },
        { j with status := "processed", outputBlobPath := some path, processedAt := some now }) := by
  unfold markProcessed moveJob
  simp only [Store.part]
  rw [h]
  rfl

/-- A successful run of poller A's reconciler: parse, transform, write the
output blob, then the two status moves. -/
theorem processResults_ok (s : Store) (outs : OutStore) (j : Job) (ofid : String)
    (efid em : Option String) (c : String) (now : Nat)
    (h : lookupBlob s.pending j.batchId = some j) :
    processResults s outs j ⟨"completed", some ofid, efid, em⟩ (.ok c) now =
      ({ s with pending := delBlob s.pending j.batchId, completed := delBlob (putBlob s.completed j.batchId { j with status := "completed", completedAt := some now, outputFileId := some ofid, errorFileId := efid }) j.batchId, processed := putBlob s.processed j.batchId { j with status := "processed", completedAt := some now, outputFileId := some ofid, errorFileId := efid, outputBlobPath := some ("output/" ++ fileNameA j now), processedAt := some now } },
       putBlob outs (fileNameA j now)
         (contentA ((parseResultsA c).filterMap (fun r => transformToSalesforceFormat r j))),
       none) := by
  have hred : processResults s outs j ⟨"completed", some ofid, efid, em⟩ (.ok c) now =
      (match markCompleted s j.batchId ofid efid now with
       | none =>
         (s, (saveResults outs j ((parseResultsA c).filterMap
            (fun r => transformToSalesforceFormat r j)) now).1, some "BlobNotFound")
       | some (s1, _) =>
         match markProcessed s1 j.batchId
             (saveResults outs j ((parseResultsA c).filterMap
               (fun r => transformToSalesforceFormat r j)) now).2.1 now with
         | none =>
           (s1, (saveResults outs j ((parseResultsA c).filterMap
              (fun r => transformToSalesforceFormat r j)) now).1, some "BlobNotFound")
         | some (s2, _) =>
           (s2, (saveResults outs j ((parseResultsA c).filterMap
              (fun r => transformToSalesforceFormat r j)) now).1, none)) := rfl
  simp only [hred, markCompleted_hit s j ofid efid now h]
  simp only [markProcessed_hit ({ s with pending := delBlob s.pending j.batchId, completed := putBlob s.completed j.batchId ({ j with status := "completed", completedAt := some now, outputFileId := some ofid, errorFileId := efid } : Job) } : Store) ({ j with status := "completed", completedAt := some now, outputFileId := some ofid, errorFileId := efid } : Job) (saveResults outs j ((parseResultsA c).filterMap (fun r => transformToSalesforceFormat r j)) now).2.1 now (lookupBlob_putBlob_self s.completed j.batchId ({ j with status := "completed", completedAt := some now, outputFileId := some ofid, errorFileId := efid } : Job))]
  rfl

set_option maxRecDepth 8192 in
/-- C5 counterexample: poller B's reconciler stamps `processedAt` (the
current clock) into every normalized result, so running it twice against
the same completed job and the same artifact text at different times
produces output blobs whose contents are not byte-equivalent. -/
theorem c5_ce_contentB_time_dependent :
    lookupBlob (processBatchResults { pending := [("b1", { batchId := "b1", inputBlobPath := some "datasets/test.json", retryCount := some 0 })] } [] { batchId := "b1", inputBlobPath := some "datasets/test.json", retryCount := some 0 } ⟨"completed", some "of1", none, none⟩ (.ok "\x7b\"custom_id\":\"r1\"\x7d") 0).2.1 "test_batch_processed_0.json" ≠ none ∧
    lookupBlob (processBatchResults { pending := [("b1", { batchId := "b1", inputBlobPath := some "datasets/test.json", retryCount := some 0 })] } [] { batchId := "b1", inputBlobPath := some "datasets/test.json", retryCount := some 0 } ⟨"completed", some "of1", none, none⟩ (.ok "\x7b\"custom_id\":\"r1\"\x7d") 1).2.1 "test_batch_processed_1.json" ≠ none ∧
    lookupBlob (processBatchResults { pending := [("b1", { batchId := "b1", inputBlobPath := some "datasets/test.json", retryCount := some 0 })] } [] { batchId := "b1", inputBlobPath := some "datasets/test.json", retryCount := some 0 } ⟨"completed", some "of1", none, none⟩ (.ok "\x7b\"custom_id\":\"r1\"\x7d") 0).2.1 "test_batch_processed_0.json" ≠
      lookupBlob (processBatchResults { pending := [("b1", { batchId := "b1", inputBlobPath := some "datasets/test.json", retryCount := some 0 })] } [] { batchId := "b1", inputBlobPath := some "datasets/test.json", retryCount := some 0 } ⟨"completed", some "of1", none, none⟩ (.ok "\x7b\"custom_id\":\"r1\"\x7d") 1).2.1 "test_batch_processed_1.json" := by
  refine ⟨?_, ?_, ?_⟩ <;> decide

/-- C5 (amended): poller A's reconciler is content-deterministic — its
normalized records carry no timestamps, so two successful runs against the
same pending job, remote payload and artifact text, at different clocks,
write byte-equivalent contents at their (timestamp-named) locators, each
recorded in the job's `outputBlobPath`.  Poller B's reconciler is not
(`c5_ce_contentB_time_dependent`): it embeds `processedAt` in every
record. -/
theorem c5_reconcilerContentDeterminism (s : Store) (outs : OutStore) (j : Job)
    (ofid : String) (efid em : Option String) (c : String) (now1 now2 : Nat)
    (h : lookupBlob s.pending j.batchId = some j) :
    ∃ ct s1 o1 s2 o2,
      processResults s outs j ⟨"completed", some ofid, efid, em⟩ (.ok c) now1 =
        (s1, o1, none) ∧
      processResults s outs j ⟨"completed", some ofid, efid, em⟩ (.ok c) now2 =
        (s2, o2, none) ∧
      lookupBlob o1 (fileNameA j now1) = some ct ∧
      lookupBlob o2 (fileNameA j now2) = some ct ∧
      (lookupBlob s1.processed j.batchId).bind Job.outputBlobPath =
        some ("output/" ++ fileNameA j now1) ∧
      (lookupBlob s2.processed j.batchId).bind Job.outputBlobPath =
        some ("output/" ++ fileNameA j now2) := by
  refine ⟨contentA ((parseResultsA c).filterMap (fun r => transformToSalesforceFormat r j)),
    _, _, _, _, processResults_ok s outs j ofid efid em c now1 h,
    processResults_ok s outs j ofid efid em c now2 h, ?_, ?_, ?_, ?_⟩
  · exact lookupBlob_putBlob_self outs (fileNameA j now1) _
  · exact lookupBlob_putBlob_self outs (fileNameA j now2) _
  · rw [lookupBlob_putBlob_self s.processed j.batchId _]
    rfl
  · rw [lookupBlob_putBlob_self s.processed j.batchId _]
    rfl

/-- Witness for `c5_reconcilerContentDeterminism`: a concrete one-job
store, one-entry artifact, clocks 0 and 1. -/
theorem c5_reconcilerContentDeterminism_witness :
    ∃ ct s1 o1 s2 o2,
      processResults { pending := [("b1", { batchId := "b1", inputBlobPath := some "datasets/test.json", objectName := some "Account", retryCount := some 0 })] } [] { batchId := "b1", inputBlobPath := some "datasets/test.json", objectName := some "Account", retryCount := some 0 } ⟨"completed", some "of1", none, none⟩ (.ok "\x7b\"custom_id\":\"r1\",\"response\":\x7b\"body\":\x7b\"choices\":[\x7b\"message\":\x7b\"content\":\"\x7b\x7d\"\x7d\x7d]\x7d\x7d\x7d") 0 = (s1, o1, none) ∧
      processResults { pending := [("b1", { batchId := "b1", inputBlobPath := some "datasets/test.json", objectName := some "Account", retryCount := some 0 })] } [] { batchId := "b1", inputBlobPath := some "datasets/test.json", objectName := some "Account", retryCount := some 0 } ⟨"completed", some "of1", none, none⟩ (.ok "\x7b\"custom_id\":\"r1\",\"response\":\x7b\"body\":\x7b\"choices\":[\x7b\"message\":\x7b\"content\":\"\x7b\x7d\"\x7d\x7d]\x7d\x7d\x7d") 1 = (s2, o2, none) ∧
      lookupBlob o1 (fileNameA { batchId := "b1", inputBlobPath := some "datasets/test.json", objectName := some "Account", retryCount := some 0 } 0) = some ct ∧
      lookupBlob o2 (fileNameA { batchId := "b1", inputBlobPath := some "datasets/test.json", objectName := some "Account", retryCount := some 0 } 1) = some ct ∧
      (lookupBlob s1.processed "b1").bind Job.outputBlobPath = some ("output/" ++ fileNameA { batchId := "b1", inputBlobPath := some "datasets/test.json", objectName := some "Account", retryCount := some 0 } 0) ∧
      (lookupBlob s2.processed "b1").bind Job.outputBlobPath = some ("output/" ++ fileNameA { batchId := "b1", inputBlobPath := some "datasets/test.json", objectName := some "Account", retryCount := some 0 } 1) :=
  c5_reconcilerContentDeterminism
    { pending := [("b1", { batchId := "b1", inputBlobPath := some "datasets/test.json", objectName := some "Account", retryCount := some 0 })] } []
    { batchId := "b1", inputBlobPath := some "datasets/test.json", objectName := some "Account", retryCount := some 0 }
    "of1" none none "\x7b\"custom_id\":\"r1\",\"response\":\x7b\"body\":\x7b\"choices\":[\x7b\"message\":\x7b\"content\":\"\x7b\x7d\"\x7d\x7d]\x7d\x7d\x7d" 0 1 (by decide)

/-! ## Claim C9: correlation ids in `createBatchJsonl`

Prompt construction (`buildPrompts` / `getSystemPrompt` /
`buildCustomUserPrompt`) is the excluded external collaborator of §1: it
is passed in as a record-to-prompt-pair function.  Both `createBatchJsonl`
variants compute the correlation id identically. -/

/-- An input record as the submitter sees it (`Id` / `Name` may be absent;
other fields only feed the prompts). -/
structure InRecord where
  Id : Option String := none
  Name : Option String := none
  fields : List (String × String) := []
deriving DecidableEq, Repr

/-- `record.Id || record.Name || `record-${index}`` (JavaScript `||`:
an absent, null or empty-string field falls through). -/
def recordCorrelationId (r : InRecord) (index : Nat) : String :=
  jsOr r.Id (jsOr r.Name ("record-" ++ toString index))

/-- One JSONL request line of `createBatchJsonl`. -/
def batchRequestLine (deployment : String) (prompts : InRecord → String × String)
    (r : InRecord) (index : Nat) : JVal :=
  .obj [("custom_id", .str (recordCorrelationId r index)),
        ("method", .str "POST"),
        ("url", .str "/v1/chat/completions"),
        ("body", .obj
          [("model", .str deployment),
           ("messages", .arr
             [.obj [("role", .str "system"), ("content", .str (prompts r).1)],
              .obj [("role", .str "user"), ("content", .str (prompts r).2)]]),
           ("temperature", .num "0.3"),
           ("max_tokens", .num "4000"),
           ("response_format", .obj [("type", .str "json_object")])])]

/-- `records.map((record, index) => ...)` of `createBatchJsonl`, with the
running index made explicit. -/
def buildLines (deployment : String) (prompts : InRecord → String × String) :
    Nat → List InRecord → List JVal
  | _, [] => []
  | i, r :: rs =>
      batchRequestLine deployment prompts r i :: buildLines deployment prompts (i + 1) rs

/-- `createBatchJsonl(records, ...)`: the newline-joined stringified
request lines. -/
def createBatchJsonl (records : List InRecord) (deployment : String)
    (prompts : InRecord → String × String) : String :=
  joinSep "\n" ((buildLines deployment prompts 0 records).map jsonStringify)

theorem buildLines_get? (deployment : String) (prompts : InRecord → String × String)
    (records : List InRecord) (k i : Nat) :
    (buildLines deployment prompts k records).get? i =
      (records.get? i).map (fun r => batchRequestLine deployment prompts r (k + i)) := by
  induction records generalizing k i with
  | nil => simp [buildLines]
  | cons r rs ih =>
    cases i with
    | zero => simp [buildLines]
    | succ n =>
      simp only [buildLines, List.get?_cons_succ, ih (k + 1) n]
      have : k + 1 + n = k + (n + 1) := by omega
      rw [this]

/-- C9 counterexample: a record whose `Id` key is present but holds the
empty string does not get its `Id` as correlation id — JavaScript `||`
falls through on the falsy `""` and picks `Name`. -/
theorem c9_ce_empty_id_present :
    (⟨some "", some "X", []⟩ : InRecord).Id = some "" ∧
    recordCorrelationId ⟨some "", some "X", []⟩ 0 = "X" ∧
    (batchRequestLine "dep" (fun _ => ("s", "u")) ⟨some "", some "X", []⟩ 0).getField
      "custom_id" = some (.str "X") ∧
    "X" ≠ "" := by
  refine ⟨rfl, rfl, rfl, by decide⟩

/-- C9 (amended): line `i` of the generated JSONL is the request built
from record `i`, whose `custom_id` is `record.Id` when present and
non-empty, else `record.Name` when present and non-empty, else
`"record-{index}"`.  The builder is a pure function of the record list, so
a fixed input ordering always yields the same correlation ids. -/
theorem c9_correlationIds (deployment : String) (prompts : InRecord → String × String)
    (records : List InRecord) (i : Nat) (r : InRecord) (hr : records.get? i = some r) :
    ((buildLines deployment prompts 0 records).get? i =
      some (batchRequestLine deployment prompts r i)) ∧
    (batchRequestLine deployment prompts r i).getField "custom_id" =
      some (.str (recordCorrelationId r i)) ∧
    (∀ s, r.Id = some s → s ≠ "" → recordCorrelationId r i = s) ∧
    ((r.Id = none ∨ r.Id = some "") →
      ∀ t, r.Name = some t → t ≠ "" → recordCorrelationId r i = t) ∧
    ((r.Id = none ∨ r.Id = some "") → (r.Name = none ∨ r.Name = some "") →
      recordCorrelationId r i = "record-" ++ toString i) := by
  refine ⟨?_, rfl, ?_, ?_, ?_⟩
  · rw [buildLines_get? deployment prompts records 0 i, hr]
    simp
  · intro s hs hne
    simp [recordCorrelationId, jsOr, hs, hne]
  · intro hid t ht htne
    rcases hid with h0 | h0 <;> simp [recordCorrelationId, jsOr, h0, ht, htne]
  · intro hid hname
    rcases hid with h0 | h0 <;> rcases hname with h1 | h1 <;>
      simp [recordCorrelationId, jsOr, h0, h1]

/-- Witness for `c9_correlationIds`: the three fallback cases on a
concrete three-record collection. -/
theorem c9_correlationIds_witness :
    ((buildLines "dep" (fun _ => ("s", "u")) 0 [⟨some "a1", none, []⟩, ⟨none, some "Nm", []⟩, ⟨none, none, []⟩]).get? 2 =
      some (batchRequestLine "dep" (fun _ => ("s", "u")) ⟨none, none, []⟩ 2)) ∧
    (batchRequestLine "dep" (fun _ => ("s", "u")) ⟨none, none, []⟩ 2).getField "custom_id" =
      some (.str (recordCorrelationId ⟨none, none, []⟩ 2)) ∧
    (∀ s, (⟨none, none, []⟩ : InRecord).Id = some s → s ≠ "" →
      recordCorrelationId ⟨none, none, []⟩ 2 = s) ∧
    (((⟨none, none, []⟩ : InRecord).Id = none ∨ (⟨none, none, []⟩ : InRecord).Id = some "") →
      ∀ t, (⟨none, none, []⟩ : InRecord).Name = some t → t ≠ "" →
        recordCorrelationId ⟨none, none, []⟩ 2 = t) ∧
    (((⟨none, none, []⟩ : InRecord).Id = none ∨ (⟨none, none, []⟩ : InRecord).Id = some "") →
      ((⟨none, none, []⟩ : InRecord).Name = none ∨ (⟨none, none, []⟩ : InRecord).Name = some "") →
      recordCorrelationId ⟨none, none, []⟩ 2 = "record-" ++ toString 2) :=
  c9_correlationIds "dep" (fun _ => ("s", "u"))
    [⟨some "a1", none, []⟩, ⟨none, some "Nm", []⟩, ⟨none, none, []⟩] 2 ⟨none, none, []⟩ rfl

/-- Witness for `c6_createBatchJob_unconditional` at a store already
holding the id in `failed`. -/
theorem c6_createBatchJob_unconditional_witness :
    ((createBatchJob { failed := [("b1", { batchId := "b1", status := "failed" })] } ⟨"b1", "f1", "a.json", 1, none, none⟩ 5).2.status = "pending" ∧
     (createBatchJob { failed := [("b1", { batchId := "b1", status := "failed" })] } ⟨"b1", "f1", "a.json", 1, none, none⟩ 5).2.retryCount = some 0 ∧
     lookupBlob (createBatchJob { failed := [("b1", { batchId := "b1", status := "failed" })] } ⟨"b1", "f1", "a.json", 1, none, none⟩ 5).1.pending "b1" = some (createBatchJob { failed := [("b1", { batchId := "b1", status := "failed" })] } ⟨"b1", "f1", "a.json", 1, none, none⟩ 5).2 ∧
     (createBatchJob { failed := [("b1", { batchId := "b1", status := "failed" })] } ⟨"b1", "f1", "a.json", 1, none, none⟩ 5).1.completed = ({ failed := [("b1", { batchId := "b1", status := "failed" })] } : Store).completed ∧
     (createBatchJob { failed := [("b1", { batchId := "b1", status := "failed" })] } ⟨"b1", "f1", "a.json", 1, none, none⟩ 5).1.processed = ({ failed := [("b1", { batchId := "b1", status := "failed" })] } : Store).processed ∧
     (createBatchJob { failed := [("b1", { batchId := "b1", status := "failed" })] } ⟨"b1", "f1", "a.json", 1, none, none⟩ 5).1.failed = ({ failed := [("b1", { batchId := "b1", status := "failed" })] } : Store).failed) ∧
    ((Storage2.createBatchJob { failed := [("b1", { batchId := "b1", status := "failed" })] } ⟨"b1", "f1", "a.json", 1, none, none⟩ 5).2.status = "pending" ∧
     (Storage2.createBatchJob { failed := [("b1", { batchId := "b1", status := "failed" })] } ⟨"b1", "f1", "a.json", 1, none, none⟩ 5).2.retryCount = some 0 ∧
     lookupBlob (Storage2.createBatchJob { failed := [("b1", { batchId := "b1", status := "failed" })] } ⟨"b1", "f1", "a.json", 1, none, none⟩ 5).1.pending "b1" = some (Storage2.createBatchJob { failed := [("b1", { batchId := "b1", status := "failed" })] } ⟨"b1", "f1", "a.json", 1, none, none⟩ 5).2 ∧
     (Storage2.createBatchJob { failed := [("b1", { batchId := "b1", status := "failed" })] } ⟨"b1", "f1", "a.json", 1, none, none⟩ 5).1.completed = ({ failed := [("b1", { batchId := "b1", status := "failed" })] } : Store).completed ∧
     (Storage2.createBatchJob { failed := [("b1", { batchId := "b1", status := "failed" })] } ⟨"b1", "f1", "a.json", 1, none, none⟩ 5).1.processed = ({ failed := [("b1", { batchId := "b1", status := "failed" })] } : Store).processed ∧
     (Storage2.createBatchJob { failed := [("b1", { batchId := "b1", status := "failed" })] } ⟨"b1", "f1", "a.json", 1, none, none⟩ 5).1.failed = ({ failed := [("b1", { batchId := "b1", status := "failed" })] } : Store).failed) :=
  c6_createBatchJob_unconditional { failed := [("b1", { batchId := "b1", status := "failed" })] }
    ⟨"b1", "f1", "a.json", 1, none, none⟩ 5

/-- Witness for `c7_get_search_characterization` at a store holding the id
only in `processed`. -/
theorem c7_get_search_characterization_witness :
    ((getJob { processed := [("b1", { batchId := "b1", status := "processed" })] } "b1" = none ↔
      ∀ f, hasJob { processed := [("b1", { batchId := "b1", status := "processed" })] } f "b1" = false) ∧
     (∀ j, getJob { processed := [("b1", { batchId := "b1", status := "processed" })] } "b1" = some j →
       ∃ f, lookupBlob (Store.part { processed := [("b1", { batchId := "b1", status := "processed" })] } f) "b1" = some j) ∧
     (Storage2.getBatchJob { processed := [("b1", { batchId := "b1", status := "processed" })] } "b1" = none ↔
       hasJob { processed := [("b1", { batchId := "b1", status := "processed" })] } .pending "b1" = false ∧
       hasJob { processed := [("b1", { batchId := "b1", status := "processed" })] } .completed "b1" = false ∧
       hasJob { processed := [("b1", { batchId := "b1", status := "processed" })] } .failed "b1" = false)) :=
  c7_get_search_characterization { processed := [("b1", { batchId := "b1", status := "processed" })] } "b1"
